import Mathlib

/-!
Verification development for the Seeed firmware/library update engine
(`mu/modes/seeed.py`): a shallow embedding of the update worker, the
resilient downloader, the catalog loader and the flashing helpers,
together with proofs about their behaviour.

Conventions of the embedding:
* Python exceptions are modelled with `Except String`; the payload is the
  (abbreviated) exception message.
* Python `dict`s are insertion-ordered association lists.
* Python `str` values are `String`/`List Char`; `bytes`/`bytearray` values
  are `List Nat` (byte values).
* Qt signal/slot interactions of the downloader are modelled as a small-step
  transition system driven by an explicit event trace; a timer can only fire
  while the corresponding `QTimer` is running.
-/

/-! ## Association lists with Python dict semantics -/

/-- First binding of key `k` in an insertion-ordered association list
(Python `d[k]` lookup / `in d.keys()`). -/
def assocFind {K V : Type} [DecidableEq K] : List (K × V) → K → Option V
  | [], _ => none
  | (k', v) :: r, k => if k' = k then some v else assocFind r k

/-- Python `dict.setdefault`: insert only when the key is absent. -/
def setdefault {K V : Type} [DecidableEq K] (l : List (K × V)) (k : K) (v : V) :
    List (K × V) :=
  if (assocFind l k).isSome then l else l ++ [(k, v)]

/-- Python `d[k] = v`: overwrite in place if present, else append. -/
def assocSet {K V : Type} [DecidableEq K] : List (K × V) → K → V → List (K × V)
  | [], k, v => [(k, v)]
  | (k', v') :: r, k, v =>
    if k' = k then (k, v) :: r else (k', v') :: assocSet r k v

/-! ## Python string helpers -/

/-- Fuel-driven worker for Python `str.replace(pat, rep)` on character
lists (all non-overlapping occurrences, left to right); the fuel is an
upper bound on the number of steps, always sufficient when it exceeds the
input length. -/
def replaceAllGo (pat rep : List Char) : Nat → List Char → List Char
  | 0, s => s
  | _, [] => []
  | fuel + 1, c :: rest =>
    if pat.isPrefixOf (c :: rest) then
      rep ++ replaceAllGo pat rep fuel (List.drop (pat.length - 1) rest)
    else
      c :: replaceAllGo pat rep fuel rest

/-- Python `str.replace(pat, rep)` on character lists.  Only called with
non-empty patterns. -/
def replaceAllL (pat rep s : List Char) : List Char :=
  replaceAllGo pat rep (s.length + 1) s

/-- Python `str.replace` on strings. -/
def pyReplace (s pat rep : String) : String :=
  String.mk (replaceAllL pat.data rep.data s.data)

/-- Clamp one endpoint of a Python slice `s[a:b]` to `[0, len]`. -/
def pySliceIdx (len : Nat) (i : Int) : Nat :=
  if i < 0 then (max 0 ((len : Int) + i)).toNat else min i.toNat len

/-- Python slice `s[a:b]` on a character list. -/
def pySlice (s : List Char) (a b : Int) : List Char :=
  (s.take (pySliceIdx s.length b)).drop (pySliceIdx s.length a)

/-- Python slice `s[a:]` on a character list. -/
def pySliceFrom (s : List Char) (a : Int) : List Char :=
  s.drop (pySliceIdx s.length a)

/-- Highest index of character `c` in `cs`, if any (Python `str.rindex`
modulo the raised exception, see `pyRindexChar`). -/
def rindexAux (c : Char) : List Char → Option Nat
  | [] => none
  | a :: rest =>
    match rindexAux c rest with
    | some i => some (i + 1)
    | none => if a = c then some 0 else none

/-- Python `str.rindex(c)`: highest index of `c`, `ValueError` if absent. -/
def pyRindexChar (cs : List Char) (c : Char) : Except String Nat :=
  match rindexAux c cs with
  | some i => .ok i
  | none => .error "ValueError: substring not found"

/-- Leftmost index at which `needle` occurs in `hay`, counting from `i`
(helper for Python `str.index`). -/
def findSubAux (needle : List Char) : List Char → Nat → Option Nat
  | [], i => if needle = [] then some i else none
  | c :: rest, i =>
    if needle.isPrefixOf (c :: rest) then some i
    else findSubAux needle rest (i + 1)

/-- Leftmost occurrence index of `needle` in `hay` (Python `str.find`). -/
def findSub (hay needle : List Char) : Option Nat :=
  findSubAux needle hay 0

/-- Hexadecimal digit value. -/
def hexDigitVal (c : Char) : Option Nat :=
  if '0' ≤ c ∧ c ≤ '9' then some (c.toNat - 48)
  else if 'a' ≤ c ∧ c ≤ 'f' then some (c.toNat - 87)
  else if 'A' ≤ c ∧ c ≤ 'F' then some (c.toNat - 55)
  else none

/-- Value of a non-empty all-hex digit run. -/
def hexDigitsVal : List Char → Option Nat
  | [] => none
  | [c] => hexDigitVal c
  | c :: rest => do
    let hd ← hexDigitVal c
    let tl ← hexDigitsVal rest
    pure (hd * 16 ^ rest.length + tl)

/-- Python `int(s, 16)`: optional sign, optional `0x`/`0X` prefix, at least
one hex digit; `ValueError` otherwise. -/
def pyIntHex (s : String) : Except String Int :=
  let (sign, cs) : Int × List Char :=
    match s.data with
    | '-' :: r => (-1, r)
    | '+' :: r => (1, r)
    | cs => (1, cs)
  let cs :=
    match cs with
    | '0' :: c :: r => if c = 'x' ∨ c = 'X' then r else '0' :: c :: r
    | cs => cs
  match hexDigitsVal cs with
  | some n => .ok (sign * (n : Int))
  | none => .error "ValueError: invalid literal for int() with base 16"

/-- Python `str((a, b))` for a pair of ints, e.g. `"(10374, 24)"`. -/
def pyStrPair (a b : Int) : String :=
  "(" ++ toString a ++ ", " ++ toString b ++ ")"

/-! ## Dates (`datetime.datetime.strptime(value, "%Y-%m-%d")`) -/

/-- A parsed calendar date.  Python `datetime` comparison is lexicographic on
(year, month, day); with month and day below 100 this agrees with comparing
`key`. -/
structure PDate where
  y : Nat
  m : Nat
  d : Nat
deriving DecidableEq, Repr

/-- Order-reflecting key for a date (valid when `m, d < 100`). -/
def PDate.key (t : PDate) : Nat := t.y * 10000 + t.m * 100 + t.d

/-- `%Y`: exactly four digits (CPython `_strptime` regex `\d\d\d\d`). -/
def parseYearTok : List Char → Option (Nat × List Char)
  | a :: b :: c :: d :: rest =>
    if a.isDigit ∧ b.isDigit ∧ c.isDigit ∧ d.isDigit then
      some ((a.toNat - 48) * 1000 + (b.toNat - 48) * 100 +
        (c.toNat - 48) * 10 + (d.toNat - 48), rest)
    else none
  | _ => none

/-- `%m`: CPython regex `1[0-2]|0[1-9]|[1-9]` (ordered alternation). -/
def parseMonthTok : List Char → Option (Nat × List Char)
  | '1' :: c :: rest =>
    if '0' ≤ c ∧ c ≤ '2' then some (10 + (c.toNat - 48), rest)
    else some (1, c :: rest)
  | '0' :: c :: rest =>
    if '1' ≤ c ∧ c ≤ '9' then some (c.toNat - 48, rest) else none
  | c :: rest =>
    if '1' ≤ c ∧ c ≤ '9' then some (c.toNat - 48, rest) else none
  | [] => none

/-- `%d`: CPython regex `3[01]|[12]\d|0[1-9]|[1-9]` (ordered alternation). -/
def parseDayTok : List Char → Option (Nat × List Char)
  | '3' :: c :: rest =>
    if c = '0' ∨ c = '1' then some (30 + (c.toNat - 48), rest)
    else some (3, c :: rest)
  | '1' :: c :: rest =>
    if c.isDigit then some (10 + (c.toNat - 48), rest)
    else some (1, c :: rest)
  | '2' :: c :: rest =>
    if c.isDigit then some (20 + (c.toNat - 48), rest)
    else some (2, c :: rest)
  | '0' :: c :: rest =>
    if '1' ≤ c ∧ c ≤ '9' then some (c.toNat - 48, rest) else none
  | c :: rest =>
    if '1' ≤ c ∧ c ≤ '9' then some (c.toNat - 48, rest) else none
  | [] => none

/-- Gregorian leap year test (as in `datetime`). -/
def isLeap (y : Nat) : Bool :=
  y % 4 = 0 ∧ (y % 100 ≠ 0 ∨ y % 400 = 0)

/-- Days in a month (as validated by the `datetime` constructor). -/
def daysInMonth (y m : Nat) : Nat :=
  if m = 2 then (if isLeap y then 29 else 28)
  else if m = 4 ∨ m = 6 ∨ m = 9 ∨ m = 11 then 30
  else 31

/-- `strptime(value, "%Y-%m-%d")` from `seeed.py`: matches the format and
validates the date, raising `ValueError` otherwise. -/
def strptimeYMD (s : List Char) : Except String PDate :=
  match parseYearTok s with
  | none => .error "ValueError: time data does not match format"
  | some (y, r1) =>
    match r1 with
    | '-' :: r2 =>
      match parseMonthTok r2 with
      | none => .error "ValueError: time data does not match format"
      | some (m, r3) =>
        match r3 with
        | '-' :: r4 =>
          match parseDayTok r4 with
          | none => .error "ValueError: time data does not match format"
          | some (d, r5) =>
            if r5 = [] then
              if 1 ≤ y ∧ d ≤ daysInMonth y m then .ok ⟨y, m, d⟩
              else .error "ValueError: day is out of range for month"
            else .error "ValueError: unconverted data remains"
        | _ => .error "ValueError: time data does not match format"
    | _ => .error "ValueError: time data does not match format"

/-! ## Strict UTF-8 decoding (`str(buf, "utf-8")`) -/

/-- Is `b` a UTF-8 continuation byte? -/
def isContByte (b : Nat) : Bool := 128 ≤ b ∧ b < 192

/-- Strict UTF-8 decoding of a byte list to characters, rejecting invalid
leads, overlong forms, surrogates and out-of-range code points, as Python's
`str(bytes, "utf-8")` does (errors raise `UnicodeDecodeError`). -/
def utf8Decode : List Nat → Except String (List Char)
  | [] => .ok []
  | b :: rest =>
    if b < 128 then do
      let tl ← utf8Decode rest
      pure (Char.ofNat b :: tl)
    else if b < 194 then .error "UnicodeDecodeError"
    else if b < 224 then
      match rest with
      | b2 :: rest2 =>
        if isContByte b2 then do
          let tl ← utf8Decode rest2
          pure (Char.ofNat ((b - 192) * 64 + (b2 - 128)) :: tl)
        else .error "UnicodeDecodeError"
      | [] => .error "UnicodeDecodeError"
    else if b < 240 then
      match rest with
      | b2 :: b3 :: rest3 =>
        if isContByte b2 ∧ isContByte b3 then
          let cp := (b - 224) * 4096 + (b2 - 128) * 64 + (b3 - 128)
          if 2048 ≤ cp ∧ ¬(55296 ≤ cp ∧ cp < 57344) then do
            let tl ← utf8Decode rest3
            pure (Char.ofNat cp :: tl)
          else .error "UnicodeDecodeError"
        else .error "UnicodeDecodeError"
      | _ => .error "UnicodeDecodeError"
    else if b < 245 then
      match rest with
      | b2 :: b3 :: b4 :: rest4 =>
        if isContByte b2 ∧ isContByte b3 ∧ isContByte b4 then
          let cp := (b - 240) * 262144 + (b2 - 128) * 4096 +
            (b3 - 128) * 64 + (b4 - 128)
          if 65536 ≤ cp ∧ cp ≤ 1114111 then do
            let tl ← utf8Decode rest4
            pure (Char.ofNat cp :: tl)
          else .error "UnicodeDecodeError"
        else .error "UnicodeDecodeError"
      | _ => .error "UnicodeDecodeError"
    else .error "UnicodeDecodeError"

/-- ASCII bytes of a string (used to build concrete probe buffers). -/
def asciiBytes (s : String) : List Nat := s.data.map Char.toNat

/-! ## A small JSON value model (`json.loads` results) -/

/-- JSON values as produced by `json.loads`. -/
inductive JValue where
  | jnull
  | jbool (b : Bool)
  | jnum (n : Int)
  | jstr (s : String)
  | jarr (xs : List JValue)
  | jobj (fields : List (String × JValue))

/-- Python `j[k]` on a parsed JSON value: `KeyError` when the key is
missing, `TypeError` when `j` is not a dict. -/
def jGet : JValue → String → Except String JValue
  | .jobj fields, k =>
    match assocFind fields k with
    | some v => .ok v
    | none => .error ("KeyError: " ++ k)
  | _, _ => .error "TypeError: value is not subscriptable by str"

/-- Python `k in j.keys()` for a parsed JSON object. -/
def jHasKey : JValue → String → Bool
  | .jobj fields, k => (assocFind fields k).isSome
  | _, _ => false

/-- Coerce to a Python `str`; any string method on a non-`str` raises. -/
def jAsStr : JValue → Except String String
  | .jstr s => .ok s
  | _ => .error "TypeError: expected str"

/-- Coerce to a Python `list` for iteration / integer indexing. -/
def jAsArr : JValue → Except String (List JValue)
  | .jarr xs => .ok xs
  | _ => .error "TypeError: expected list"

/-- Python `xs[i]` on a list: `IndexError` when out of range. -/
def jIndex (xs : List JValue) (i : Nat) : Except String JValue :=
  match xs.get? i with
  | some v => .ok v
  | none => .error "IndexError: list index out of range"

/-! ## `Config` (per-board firmware descriptor, `seeed.py` lines 101-135)

`Config.version` is `strptime(self.json["firmware"]["version"])`; each
subscript and the parse can raise. -/

/-- `Config.version`: parse the firmware version date out of the config
JSON (`self.json["firmware"]["version"]`). -/
def configVersion (j : JValue) : Except String PDate := do
  let fw ← jGet j "firmware"
  let v ← jGet fw "version"
  let s ← jAsStr v
  strptimeYMD s.data

/-- `Config.firmware_name`: `self.json["firmware"]["name"]`; each subscript
can raise (`KeyError` on a dict without the key, `TypeError` on a
non-dict). -/
def firmware_name (j : JValue) : Except String JValue := do
  jGet (← jGet j "firmware") "name"

/-- `Config.local_firmware`: `seeed_path(self.firmware_name)`;
`os.path.join` raises `TypeError` on a non-`str` component. -/
def local_firmware (j : JValue) : Except String String := do
  jAsStr (← firmware_name j)

/-- `Config.cloud_firmware`: `self.json["firmware"]["path"]`. -/
def cloud_firmware (j : JValue) : Except String JValue := do
  jGet (← jGet j "firmware") "path"

/-- `Config.reload`: `json.loads` of the config file under its own
`try`/`except`, so a parse failure leaves `self.json = {}` instead of
raising. -/
def configReload (parsed : Except String JValue) : JValue :=
  match parsed with
  | .ok v => v
  | .error _ => .jobj []

/-- The body of `FirmwareUpdater.check_new_firmware` after a successful
config download and `reload` (`seeed.py` 963-978): `file.exist_firmware`
evaluates `local_firmware` (which subscripts `json["firmware"]["name"]`
with no `try`) before testing the disk (`fwOnDisk`); the download branch
re-evaluates the same properties in every status message and in the
`confirmDownload(local_firmware, cloud_firmware)` call (`fwDlOk` models
that download's outcome). -/
def cnfBody (j : JValue) (fwOnDisk fwDlOk : Bool) : Except String Bool := do
  let _lf ← local_firmware j
  if fwOnDisk then .ok true
  else do
    let _n1 ← firmware_name j
    let _lf2 ← local_firmware j
    let _cf ← cloud_firmware j
    if fwDlOk = false then do
      let _n2 ← firmware_name j
      .ok false
    else do
      let _n3 ← firmware_name j
      .ok true

/-- `FirmwareUpdater.check_new_firmware` (`seeed.py` 954-978): a refused
config download returns `False`; otherwise `reload` swallows a parse
failure (leaving `{}`) and the body's property accesses run unprotected. -/
def check_new_firmware (dlOk : Bool) (parsed : Except String JValue)
    (fwOnDisk fwDlOk : Bool) : Except String Bool :=
  if dlOk = false then .ok false
  else cnfBody (configReload parsed) fwOnDisk fwDlOk

/-! ## `Downloader` (`seeed.py` lines 585-707)

The downloader is a `QObject` whose constructor issues the first request,
renames the destination to a `.bak` sibling, opens the destination for
writing, and then spins a `QEventLoop` until `finished` is emitted.  We
model it as a state machine driven by a trace of network/timer events:

* `reqTimeout`  — the (repeating) request timer fired (`onReqTimeOut`);
* `readTimeout` — the read/stall timer fired (`onReadTimeOut`);
* `readyRead`   — first data of a reply arrived (`startRead`);
* `progress c w cur total` — a `downloadProgress(cur, total)` signal
  (`onProgress`); `c` is the chunk `reply.readAll()` returns and `w`
  indicates that `writeFile` raised (and hence returned `False`).

A timer event can only fire while its timer is running; this is tracked in
the state.  File-system effects on the destination (`fsDes`) and the
backup (`fsBak`) are threaded through the state. -/

/-- State of one `Downloader` call. -/
structure DState where
  try_time : Nat
  getCount : Nat
  retStatus : Bool
  finConnected : Bool
  loopQuit : Bool
  replyBound : Bool
  reqTimerOn : Bool
  readTimerOn : Bool
  readyConnected : Bool
  fsDes : Option (List Nat)
  fsBak : Option (List Nat)
deriving DecidableEq, Repr

/-- Events delivered to the downloader's event loop. -/
inductive DEvent where
  | reqTimeout
  | readTimeout
  | readyRead
  | progress (chunk : List Nat) (writeFails : Bool) (cur total : Nat)
deriving DecidableEq, Repr

/-- `self.finished.emit(...)`: quits the event loop once connected. -/
def emitFinished (s : DState) : DState :=
  if s.finConnected then { s with loopQuit := true } else s

/-- `Downloader.request`: issue a GET while attempts remain (consuming
one), otherwise emit `finished` and stop the request timer. -/
def dRequest (s : DState) : DState :=
  if s.try_time ≠ 0 then
    { s with replyBound := true, readyConnected := true,
             getCount := s.getCount + 1, try_time := s.try_time - 1 }
  else
    let s := emitFinished s
    { s with reqTimerOn := false }

/-- `Downloader.destoryRequestReply(self.reply)`: referencing `self.reply`
before any request was issued raises `AttributeError` (which PyQt treats
as fatal in a slot); otherwise the old reply is closed and its signals
blocked. -/
def dDestroy (s : DState) : Except String DState :=
  if s.replyBound then .ok s
  else .error "AttributeError: 'Downloader' object has no attribute 'reply'"

/-- `Downloader.requestAgain`. -/
def dRequestAgain (s : DState) : Except String DState := do
  let s ← dDestroy s
  pure (dRequest s)

/-- `Downloader.onReadTimeOut`: stop the read timer, truncate the
destination file back to empty, reissue the request, restart the request
timer. -/
def dOnReadTimeOut (s : DState) : Except String DState := do
  let s := { s with readTimerOn := false, fsDes := some [] }
  let s ← dRequestAgain s
  pure { s with reqTimerOn := true }

/-- `Downloader.onReqTimeOut` (the request timer is repeating and is not
stopped here). -/
def dOnReqTimeOut (s : DState) : Except String DState :=
  dRequestAgain s

/-- `Downloader.startRead`: stop the request timer and disconnect
`readyRead`. -/
def dStartRead (s : DState) : DState :=
  { s with reqTimerOn := false, readyConnected := false }

/-- `Downloader.endRead`. -/
def dEndRead (successful : Bool) (s : DState) : Except String DState :=
  if successful then do
    let s := emitFinished { s with retStatus := true }
    dDestroy s
  else do
    let s ← dRequestAgain s
    pure { s with reqTimerOn := true }

/-- `Downloader.writeFile`: append the chunk read from the reply to the
open destination file; returns `false` exactly when it raised. -/
def dWriteFile (chunk : List Nat) (writeFails : Bool) (s : DState) :
    DState × Bool :=
  if writeFails then (s, false)
  else ({ s with fsDes := some ((s.fsDes.getD []) ++ chunk) }, true)

/-- First half of `Downloader.onProgress`: `readTimer.start(...)` then
`if self.writeFile() is False: self.endRead(False)`. -/
def dProgressWrite (chunk : List Nat) (writeFails : Bool) (s : DState) :
    Except String DState :=
  let w := dWriteFile chunk writeFails { s with readTimerOn := true }
  if w.2 = false then dEndRead false w.1 else pure w.1

/-- Second half of `Downloader.onProgress`:
`if cur == total and total > 0: self.endRead(True)`. -/
def dProgressComplete (cur total : Nat) (s : DState) : Except String DState :=
  if cur = total ∧ 0 < total then dEndRead true s else pure s

/-- `Downloader.onProgress(cur, total)`: start the read timer, write the
available data (failure aborts the attempt), finish when `cur == total
and total > 0`, and stop the read timer again before returning. -/
def dOnProgress (chunk : List Nat) (writeFails : Bool) (cur total : Nat)
    (s : DState) : Except String DState := do
  let s ← dProgressWrite chunk writeFails s
  let s ← dProgressComplete cur total s
  pure { s with readTimerOn := false }

/-- Deliver one event: timer events only fire while their timer runs,
`readyRead` only while connected. -/
def dStep (s : DState) (e : DEvent) : Except String DState :=
  match e with
  | .reqTimeout => if s.reqTimerOn then dOnReqTimeOut s else .ok s
  | .readTimeout => if s.readTimerOn then dOnReadTimeOut s else .ok s
  | .readyRead => if s.readyConnected then .ok (dStartRead s) else .ok s
  | .progress chunk wf cur total => dOnProgress chunk wf cur total s

/-- Run the `QEventLoop`: deliver events until `finished` has quit the
loop (events after that are not processed). -/
def runEvents : DState → List DEvent → Except String DState
  | s, [] => .ok s
  | s, e :: es =>
    if s.loopQuit then .ok s
    else do
      let s' ← dStep s e
      runEvents s' es

/-- `Downloader.__init__` up to `eventLoop.exec_()`: first `request()`
(before `finished` is connected), then the `.bak` juggling, opening the
destination with mode `"wb"`, starting the request timer and connecting
`finished` to `eventLoop.quit`. -/
def initDState (des0 bak0 : Option (List Nat)) (try_time : Nat) : DState :=
  let s : DState :=
    { try_time := try_time, getCount := 0, retStatus := false,
      finConnected := false, loopQuit := false, replyBound := false,
      reqTimerOn := false, readTimerOn := false, readyConnected := false,
      fsDes := des0, fsBak := bak0 }
  let s := dRequest s
  let s := if s.fsBak.isSome then { s with fsBak := none } else s
  let s :=
    match s.fsDes with
    | some c => { s with fsDes := none, fsBak := some c }
    | none => s
  let s := { s with fsDes := some [] }
  let s := { s with reqTimerOn := true }
  { s with finConnected := true }

/-- What a finished `Downloader` call leaves on disk. -/
structure DLResult where
  retStatus : Bool
  des : Option (List Nat)
  bak : Option (List Nat)
  getCount : Nat
deriving DecidableEq, Repr

/-- `Downloader.__init__` after `eventLoop.exec_()` returns: close the
file, then either roll back (delete the fresh destination, rename `.bak`
back) on failure, or delete `.bak` on success.  Returns the final
`(destination, backup)` contents. -/
def finalizeDL (s : DState) : Option (List Nat) × Option (List Nat) :=
  let des := s.fsDes
  let bak := s.fsBak
  if s.retStatus = false then
    let des := if des.isSome then none else des
    match bak with
    | some c => (some c, none)
    | none => (des, bak)
  else
    let bak := if bak.isSome then none else bak
    (des, bak)

/-- One complete `Downloader(des_path, source_path, ...)` call on initial
destination content `des0`, initial `.bak` content `bak0`, attempt budget
`try_time`, driven by the event trace `events`.  `.ok none` means the
event loop is still blocked (the call has not returned); `.error` means a
slot raised (PyQt aborts). -/
def downloaderRun (des0 bak0 : Option (List Nat)) (try_time : Nat)
    (events : List DEvent) : Except String (Option DLResult) := do
  let s ← runEvents (initDState des0 bak0 try_time) events
  if s.loopQuit then
    pure (some { retStatus := s.retStatus, des := (finalizeDL s).1,
                 bak := (finalizeDL s).2, getCount := s.getCount })
  else
    pure none

/-- A failing delivery: the request timer fired, or `writeFile` raised on
a progress signal that does not complete the transfer.  Used to state the
attempt-budget bound. -/
def failEvent : DEvent → Bool
  | .reqTimeout => true
  | .progress _ writeFails cur total =>
    writeFails ∧ ¬(cur = total ∧ 0 < total)
  | _ => false

/-! ## `Info.loadData` (`seeed.py` lines 155-186)

The catalog loader reads `info.json` and rebuilds five collections:
`lib_dic`, `cmd_param`, `board_boot`, `board_normal`, `dic_config`.
Both `dic_config` and `cmd_param` are populated with `setdefault`, keyed
by `str((vendorId, productId))`; the `boot` list is processed before the
`normal` list. -/

/-- The five collections rebuilt by `Info.loadData`. -/
structure InfoState where
  lib_dic : List (String × String)
  cmd_param : List (String × String)
  board_boot : List (Int × Int)
  board_normal : List (Int × Int)
  dic_config : List (String × String)
deriving DecidableEq, Repr

/-- Per-board extraction shared by both catalog loops: `type`, `pvid`,
`int(pvid[0], 16)`, `int(pvid[1], 16)` and the `config-%s.json` name, in
source evaluation order. -/
def boardEntry (board : JValue) : Except String ((Int × Int) × String) := do
  let name ← jAsStr (← jGet board "type")
  let pvid ← jAsArr (← jGet board "pvid")
  let a ← pyIntHex (← jAsStr (← jIndex pvid 0))
  let b ← pyIntHex (← jAsStr (← jIndex pvid 1))
  pure ((a, b), "config-" ++ name ++ ".json")

/-- One iteration of a `loadData` board loop (`boot` when `isBoot`):
`dic_config.setdefault`, membership append, and for `boot` entries the
optional per-board `flashParam` into `cmd_param.setdefault`. -/
def procBoard (isBoot : Bool) (st : InfoState) (board : JValue) :
    Except String InfoState := do
  let e ← boardEntry board
  let key := pyStrPair e.1.1 e.1.2
  let st := { st with dic_config := setdefault st.dic_config key e.2 }
  if isBoot then
    let st := { st with board_boot := st.board_boot ++ [e.1] }
    if jHasKey board "flashParam" then do
      let v ← jGet board "flashParam"
      let sv ← jAsStr v
      pure { st with
        cmd_param := setdefault st.cmd_param key (pyReplace sv "'" "\"") }
    else
      pure st
  else
    pure { st with board_normal := st.board_normal ++ [e.1] }

/-- One iteration of the `lib` loop: `lib_dic.setdefault(name, version)`. -/
def procLib (st : InfoState) (lib : JValue) : Except String InfoState := do
  let n ← jAsStr (← jGet lib "name")
  let v ← jAsStr (← jGet lib "version")
  pure { st with lib_dic := setdefault st.lib_dic n v }

/-- `Info.loadData` on an already-parsed `info.json` value (the class-level
collections are cleared first; `json.loads` failures are handled by the
caller, see `loadDataFile`). -/
def loadData (inf : JValue) : Except String InfoState := do
  let fparam ← jAsStr (← jGet inf "flashParam")
  let default_flash_param := pyReplace fparam "'" "\""
  let bootArr ← jAsArr (← jGet inf "boot")
  let st : InfoState := ⟨[], [], [], [], []⟩
  let st ← bootArr.foldlM (procBoard true) st
  let st := { st with cmd_param := assocSet st.cmd_param "default" default_flash_param }
  let normalArr ← jAsArr (← jGet inf "normal")
  let st ← normalArr.foldlM (procBoard false) st
  let libArr ← jAsArr (← jGet inf "lib")
  libArr.foldlM procLib st

/-- `Info.loadData` including the `json.loads` of the info file: a parse
failure propagates (there is no `try` in `loadData`). -/
def loadDataFile (parsed : Except String JValue) : Except String InfoState := do
  loadData (← parsed)

/-- The `(str((vid, pid)), config name)` pairs registered by the `boot`
loop, in order. -/
def bootEntries (inf : JValue) : Except String (List ((Int × Int) × String)) := do
  (← jAsArr (← jGet inf "boot")).mapM boardEntry

/-- The `(str((vid, pid)), config name)` pairs registered by the `normal`
loop, in order. -/
def normalEntries (inf : JValue) : Except String (List ((Int × Int) × String)) := do
  (← jAsArr (← jGet inf "normal")).mapM boardEntry

/-- Key an extracted catalog entry the way `loadData` keys `dic_config`. -/
def keyedEntry (e : (Int × Int) × String) : String × String :=
  (pyStrPair e.1.1 e.1.2, e.2)

/-! ## `FirmwareUpdater.check_new_lib` and `unzip` (`seeed.py` 790-869) -/

/-- External outcomes for one library-refresh pass: whether
`confirmDownload` of a given zip succeeds, and whether extracting it
raises. -/
structure LibOracle where
  dlOk : String → Bool
  unzipFails : String → Bool

/-- Host state touched by the library refresh: the installed-library dict
and the two directories involved. -/
structure LibEnv where
  lib_dic : List (String × String)
  seeedFiles : List String
  muDirs : List String
deriving DecidableEq, Repr

/-- `FirmwareUpdater.unzip(lib_zip_name)`: skip when the target directory
already exists; otherwise extract, and on an extraction exception remove
the partially extracted directory and return `False`. -/
def unzipM (oracle : LibOracle) (lib_zip_name : String) (env : LibEnv) :
    Bool × LibEnv :=
  let dirName := pyReplace lib_zip_name ".zip" ""
  if dirName ∈ env.muDirs then (true, env)
  else if oracle.unzipFails lib_zip_name then
    -- extraction created the directory, raised part-way, and the handler
    -- removed it again (`shutil.rmtree`)
    let envMid := { env with muDirs := dirName :: env.muDirs }
    (false, { envMid with muDirs := envMid.muDirs.erase dirName })
  else
    (true, { env with muDirs := dirName :: env.muDirs })

/-- The status message for the network-failure early return. -/
def libNetworkError : String :=
  "libaray update failure, please check your network."

/-- The branch at the top of the `check_new_lib` loop body: `none` means
`continue`, `some msg` is the status message shown before downloading.
The version comparison can raise `ValueError` on malformed dates. -/
def libNeeds (env : LibEnv) (nam ver : String) : Except String (Option String) :=
  if (assocFind env.lib_dic nam).isNone then
    .ok (some ("downloading " ++ nam ++ ", please wait patiently"))
  else do
    let dNew ← strptimeYMD ver.data
    let dOld ← strptimeYMD ((assocFind env.lib_dic nam).getD "").data
    if dOld.key < dNew.key then
      .ok (some ("updating " ++ nam ++ ", please wait patiently"))
    else if nam ∉ env.seeedFiles then
      .ok (some ("downloading " ++ nam ++ ", please wait patiently"))
    else
      .ok none

/-- Result of `check_new_lib`'s loop: final environment, status messages
in order, whether any library changed, and whether the loop returned
early (download or extraction failure). -/
structure LibLoopOut where
  env : LibEnv
  statuses : List String
  has_new : Bool
  earlyReturn : Bool
deriving Repr

/-- The `for new in lib` loop of `check_new_lib`.  A download failure or
an extraction failure returns from `check_new_lib` immediately. -/
def libLoop (oracle : LibOracle) : List JValue → LibEnv → List String → Bool →
    Except String LibLoopOut
  | [], env, stats, hasNew => .ok ⟨env, stats, hasNew, false⟩
  | new :: rest, env, stats, hasNew => do
    let nam ← jAsStr (← jGet new "name")
    let ver ← jAsStr (← jGet new "version")
    match ← libNeeds env nam ver with
    | none => libLoop oracle rest env stats hasNew
    | some msg =>
      let stats := stats ++ [msg]
      let _pth ← jGet new "path"
      if oracle.dlOk nam = false then
        .ok ⟨env, stats ++ [libNetworkError], hasNew, true⟩
      else
        let env := { env with
          seeedFiles :=
            if nam ∈ env.seeedFiles then env.seeedFiles
            else nam :: env.seeedFiles }
        let stats := stats ++ ["extracting " ++ nam ++ "..."]
        let (ok, env) := unzipM oracle nam env
        if ok = false then
          .ok ⟨env, stats ++ [nam ++ " extract failure"], hasNew, true⟩
        else
          let env := { env with lib_dic := setdefault env.lib_dic nam ver }
          libLoop oracle rest env stats true

/-- Result of `check_new_lib`: `none` when the library manifest download
was refused (offline). -/
structure CheckLibResult where
  env : LibEnv
  statuses : List String
  persisted : Bool
deriving Repr

/-- `FirmwareUpdater.check_new_lib`: download the manifest (`none` input
models a refused/offline download), `json.loads` both files (uncaught),
run the loop, and persist the updated info file only when a library
changed and the loop did not return early. -/
def check_new_lib (libDlOk : Bool) (libParse infParse : Except String JValue)
    (oracle : LibOracle) (env0 : LibEnv) :
    Except String (Option CheckLibResult) :=
  if libDlOk = false then .ok none
  else do
    let libJ ← libParse
    let _infJ ← infParse
    let arr ← jAsArr libJ
    let out ← libLoop oracle arr env0 [] false
    if out.earlyReturn then
      .ok (some ⟨out.env, out.statuses, false⟩)
    else if out.has_new = false then
      .ok (some ⟨out.env, out.statuses, false⟩)
    else
      .ok (some ⟨out.env, out.statuses ++ ["libaray update successfully!"], true⟩)

/-! ## The worker's straight-line prologue (`FirmwareUpdater.run`, 753-756)

`run` starts with `renew_info_file()` (download `info.json`, then
`Info.loadData()`, whose `json.loads` is uncaught) followed by
`check_new_lib()`.  `run` itself has no `try`/`except`. -/

/-- `FirmwareUpdater.renew_info_file` + `check_new_lib` as executed at the
top of `run`.  `infoDl = none` models `confirmDownload` returning a falsy
value (offline); `some p` models a successful download whose file content
parses to `p`. -/
def runPrologue (info0 : InfoState) (infoDl : Option (Except String JValue))
    (libDlOk : Bool) (libParse infParse : Except String JValue)
    (oracle : LibOracle) (seeedFiles muDirs : List String) :
    Except String (InfoState × Option CheckLibResult) := do
  let info1 ←
    match infoDl with
    | none => pure info0
    | some p => loadDataFile p
  let r ← check_new_lib libDlOk libParse infParse oracle
    ⟨info1.lib_dic, seeedFiles, muDirs⟩
  pure (info1, r)

/-! ## `FirmwareUpdater.board_halt` (`seeed.py` lines 928-952) -/

/-- Outcome of one open-write-read serial cycle. -/
inductive SerialAttempt where
  | openFail
  | writeFail
  | readFail
  | ok (lines : List (List Nat))
deriving Repr

/-- One iteration of the `for i in range(0, 3)` loop of `board_halt`.
`comBound` records whether the local variable `com` has ever been
assigned.  On an open failure in the very first iteration, the
`com.close()` after the `except` clauses raises `UnboundLocalError`
(uncaught).  Returns `.inl buf` when the cycle succeeded, `.inr comBound`
to continue. -/
def bhStep (a : SerialAttempt) (comBound : Bool) :
    Except String (Sum (List Nat) Bool) :=
  match a with
  | .ok lines => .ok (.inl (lines.foldl (· ++ ·) []))
  | .openFail =>
    if comBound then .ok (.inr comBound)
    else .error "UnboundLocalError: local variable 'com' referenced before assignment"
  | .writeFail => .ok (.inr true)
  | .readFail => .ok (.inr true)

/-- `FirmwareUpdater.board_halt`: three attempts, then `return None`. -/
def board_halt (att : Nat → SerialAttempt) :
    Except String (Option (List Nat)) := do
  match ← bhStep (att 0) false with
  | .inl buf => pure (some buf)
  | .inr cb1 =>
    match ← bhStep (att 1) cb1 with
    | .inl buf => pure (some buf)
    | .inr cb2 =>
      match ← bhStep (att 2) cb2 with
      | .inl buf => pure (some buf)
      | .inr _ => pure none

/-! ## `FirmwareUpdater.update` (`seeed.py` lines 980-1006) -/

/-- The firmware banner scanned for in the probe output. -/
def ardupyBanner : List Char := ("; Ardupy with seeed").data

/-- The `try` block of `update`, with the two mutable locals it can touch:
returns `(info.has_firmware was set, some need_update)` on normal
completion and `(info.has_firmware was set, none)` when an exception was
caught (in which case `has_seeed_firmware` becomes `False`). -/
def probeTry (cfg : JValue) (buf : Option (List Nat)) : Bool × Option Bool :=
  match buf with
  | none => (false, none)                       -- str(None, "utf-8"): TypeError
  | some bs =>
    match utf8Decode bs with
    | .error _ => (false, none)                 -- UnicodeDecodeError
    | .ok tmp =>
      match findSub tmp ardupyBanner with
      | none => (false, none)                   -- str.index: ValueError
      | some r =>
        let ver := pySlice tmp ((r : Int) - 10) (r : Int)
        -- self.info.has_firmware = True; self.set_all_button.emit(True)
        match configVersion cfg with
        | .error _ => (true, none)
        | .ok cv =>
          match strptimeYMD ver with
          | .error _ => (true, none)
          | .ok bv => (true, some (decide (bv.key < cv.key)))

/-- What one `update()` call decides. -/
structure UpdOut where
  called_download : Bool
  need_update : Bool
  has_seeed_firmware : Bool
  info_has_firmware_set : Bool
deriving DecidableEq, Repr

/-- `FirmwareUpdater.update`: in bootloader mode go straight to
`download_to_board(self.config)`; otherwise probe the board, scan for the
banner, compare versions, and either skip ("has latest firmware.") or
call `download_to_board(self.config, need_update, has_seeed_firmware)`. -/
def updateStep (in_bootload_mode : Bool) (cfg : JValue)
    (buf : Option (List Nat)) : UpdOut :=
  if in_bootload_mode then ⟨true, true, false, false⟩
  else
    let (hfset, res) := probeTry cfg buf
    let need_update := res.getD true
    let has_seeed_firmware := res.isSome
    if need_update then ⟨true, true, has_seeed_firmware, hfset⟩
    else ⟨false, false, has_seeed_firmware, hfset⟩

/-! ## `Info.short_device_name` and `Info.bossac` (`seeed.py` 201-224)
and the detection handler's prefix strip (line 1104-1106) -/

/-- `Info.short_device_name` on POSIX:
`board_name[board_name.rindex("/") + 1:]`; `str.rindex` raises
`ValueError` when `"/"` does not occur.  On other platforms the name is
returned unchanged. -/
def short_device_name (osPosix : Bool) (board_name : String) :
    Except String String :=
  if osPosix then do
    let i ← pyRindexChar board_name.data '/'
    pure (String.mk (pySliceFrom board_name.data ((i : Int) + 1)))
  else
    .ok board_name

/-- Python `fmt % (a, b)` with exactly the `%s` conversions substituted
left-to-right (and `%%` as a literal percent); a conversion-count
mismatch raises `TypeError`. -/
def pyFormat2Aux (a b : String) (have_ : Nat) : List Char → Except String (List Char)
  | [] =>
    if have_ = 2 then .ok []
    else .error "TypeError: not all arguments converted during string formatting"
  | '%' :: 's' :: rest =>
    (match have_ with
     | 0 => do pure (a.data ++ (← pyFormat2Aux a b 1 rest))
     | 1 => do pure (b.data ++ (← pyFormat2Aux a b 2 rest))
     | _ => .error "TypeError: not enough arguments for format string")
  | '%' :: '%' :: rest => do pure ('%' :: (← pyFormat2Aux a b have_ rest))
  | '%' :: _ :: _ => .error "ValueError: unsupported format character"
  | ['%'] => .error "ValueError: incomplete format"
  | c :: rest => do pure (c :: (← pyFormat2Aux a b have_ rest))

/-- Python `fmt % (a, b)` on strings. -/
def pyFormat2 (fmt a b : String) : Except String String := do
  pure (String.mk (← pyFormat2Aux a b 0 fmt.data))

/-- `Info.bossac(local_firmware)`: pick the per-board flash parameters (or
the "default" entry), substitute the short device name and the firmware
path, and prefix the platform tool path.  `short_device_name` is
evaluated as the first `%` argument. -/
def bossac (osPosix : Bool) (toolPath : String)
    (cmd_param : List (String × String)) (board_id : Option String)
    (board_name : String) (local_firmware : String) : Except String String := do
  let cmd ←
    match board_id.bind (assocFind cmd_param) with
    | some c => pure c
    | none =>
      match assocFind cmd_param "default" with
      | some c => pure c
      | none => Except.error "KeyError: 'default'"
  let sdn ← short_device_name osPosix board_name
  let cmd ← pyFormat2 cmd sdn local_firmware
  pure ("\"" ++ toolPath ++ "bossac\" " ++ cmd)

/-- The detection handler's device-name normalisation
(`__asyc_detect_new_device_handle`): strip a leading `"/dev/"`. -/
def detectStripDevName (device_name : String) : String :=
  if device_name.data.take 5 = ("/dev/").data then
    String.mk (device_name.data.drop 5)
  else
    device_name

/-- Override the backup slot of a downloader state (used to factor out
that no event handler ever reads or writes the `.bak` file). -/
def setBak (b : Option (List Nat)) (s : DState) : DState :=
  { s with fsBak := b }

/-! ## Theorems -/

/-! ### C2 — exception safety of the worker loop -/

/-- C2 (counterexample): the claim says every failure inside the worker
loop — in particular malformed catalog JSON — is caught locally so the
worker thread never dies.  But `Info.loadData` calls `json.loads` with no
`try`/`except`: a malformed freshly-downloaded `info.json` makes the
exception escape `run` (modelled by `runPrologue` returning `.error`). -/
theorem c2_counterexample :
    runPrologue ⟨[], [], [], [], []⟩
      (some (.error "Expecting value: line 1 column 1 (char 0)")) true
      (.ok (.jarr [])) (.ok (.jobj []))
      ⟨fun _ => true, fun _ => false⟩ [] [] =
      .error "Expecting value: line 1 column 1 (char 0)" := rfl

/-- C2 (amended): `run` does not contain exceptions.  First, whenever the
freshly downloaded `info.json` fails to parse, `Info.loadData`'s
`json.loads` raises inside `renew_info_file` and the exception propagates
out of `run` unchanged, killing the worker thread.  Second, inside the
`while True` body, when the downloaded config's JSON leaves
`json["firmware"]` unsubscriptable — in particular `{}` after `reload`
swallowed a parse failure, or a well-formed object without the
`"firmware"` key — `check_new_firmware` raises that `KeyError` uncaught
via `exist_firmware` → `local_firmware` → `firmware_name`, likewise
escaping `run`. -/
theorem c2_amended_uncaught_exceptions_escape_run :
    (∀ (info0 : InfoState) (e : String) (libDlOk : Bool)
      (libParse infParse : Except String JValue) (oracle : LibOracle)
      (seeedFiles muDirs : List String),
      runPrologue info0 (some (.error e)) libDlOk libParse infParse oracle
        seeedFiles muDirs = .error e) ∧
    (∀ (parsed : Except String JValue) (fwOnDisk fwDlOk : Bool) (e : String),
      jGet (configReload parsed) "firmware" = .error e →
      check_new_firmware true parsed fwOnDisk fwDlOk = .error e) := by
  refine ⟨fun _ _ _ _ _ _ _ _ => rfl, ?_⟩
  intro parsed fwOnDisk fwDlOk e h
  have h1 : firmware_name (configReload parsed) = .error e := by
    unfold firmware_name
    rw [h]
    rfl
  have h2 : local_firmware (configReload parsed) = .error e := by
    unfold local_firmware
    rw [h1]
    rfl
  show cnfBody (configReload parsed) fwOnDisk fwDlOk = .error e
  unfold cnfBody
  rw [h2]
  rfl

/-- C2 witness for the amended theorem: a config download whose content
does not parse leaves `json = {}`, so the first `exist_firmware` access
in `check_new_firmware` dies with `KeyError: firmware`. -/
theorem c2_amended_uncaught_exceptions_escape_run_witness :
    jGet (configReload (.error "Expecting value: line 1 column 1 (char 0)"))
      "firmware" = .error "KeyError: firmware" ∧
    check_new_firmware true (.error "Expecting value: line 1 column 1 (char 0)")
      false true = .error "KeyError: firmware" :=
  ⟨rfl, c2_amended_uncaught_exceptions_escape_run.2
    (.error "Expecting value: line 1 column 1 (char 0)") false true
    "KeyError: firmware" rfl⟩

/-! ### C9 — `board_halt` error handling -/

/-- C9: the claim says a `board_halt` whose every cycle fails with a
serial open, write, or read error returns `None` rather than propagating
an exception.  When the very first `serial.Serial(...)` open raises, the
`com.close()` placed after the `except` clauses references the unbound
local `com` and raises `UnboundLocalError`, which propagates to the
caller.  (For write/read failures the loop does retry three times and
return `None`, as claimed.) -/
theorem c9_first_open_failure_raises_unbound_local :
    board_halt (fun _ => .openFail) =
      .error "UnboundLocalError: local variable 'com' referenced before assignment" ∧
    board_halt (fun _ => .writeFail) = .ok none ∧
    board_halt (fun _ => .readFail) = .ok none := ⟨rfl, rfl, rfl⟩

/-! ### C8 — bannerless probe buffers never raise -/

/-- C8: for every probe result without the banner — `None`, empty, or
undecodable bytes — the probe/compare block of `update` never raises: the
`except` clause yields `has_seeed_firmware = False` (firmware presence
unknown), `need_update` stays `True`, and the cycle proceeds into
`download_to_board`. -/
theorem c8_no_banner_never_raises :
    ∀ (cfg : JValue) (buf : Option (List Nat)),
      (∀ bs tmp, buf = some bs → utf8Decode bs = .ok tmp →
        findSub tmp ardupyBanner = none) →
      updateStep false cfg buf = ⟨true, true, false, false⟩ := by
  intro cfg buf h
  cases buf with
  | none => rfl
  | some bs =>
    cases hdec : utf8Decode bs with
    | error e => simp [updateStep, probeTry, hdec]
    | ok tmp =>
      have hb := h bs tmp rfl hdec
      simp [updateStep, probeTry, hdec, hb]

/-- C8 witness: a buffer of binary garbage (invalid UTF-8). -/
theorem c8_no_banner_never_raises_witness :
    updateStep false (.jobj []) (some [255]) = ⟨true, true, false, false⟩ :=
  c8_no_banner_never_raises (.jobj []) (some [255])
    (fun bs tmp hbs hdec => by
      cases hbs
      rw [show utf8Decode [255] = .error "UnicodeDecodeError" from rfl] at hdec
      exact Except.noConfusion hdec)

/-! ### C5 — the update decision for a probed, banner-carrying board -/

/-- C5: for a normal-mode board whose probe output decodes and contains
the banner preceded by a valid date, `download_to_board` is invoked iff
the catalog version is strictly newer than the probed board version;
otherwise the update is skipped ("has latest firmware."). -/
theorem c5_update_decision :
    ∀ (bs : List Nat) (tmp : List Char) (r : Nat) (cfg : JValue)
      (cv bv : PDate),
      utf8Decode bs = .ok tmp →
      findSub tmp ardupyBanner = some r →
      10 ≤ r →
      configVersion cfg = .ok cv →
      strptimeYMD (pySlice tmp ((r : Int) - 10) (r : Int)) = .ok bv →
      ((updateStep false cfg (some bs)).called_download = true ↔
        bv.key < cv.key) ∧
      (¬ bv.key < cv.key →
        updateStep false cfg (some bs) = ⟨false, false, true, true⟩) := by
  intro bs tmp r cfg cv bv hdec hfind _hr hcv hbv
  have hp : probeTry cfg (some bs) = (true, some (decide (bv.key < cv.key))) := by
    simp [probeTry, hdec, hfind, hcv, hbv]
  by_cases hlt : bv.key < cv.key
  · constructor
    · simp [updateStep, hp, hlt]
    · intro hc
      exact absurd hlt hc
  · constructor
    · simp [updateStep, hp, hlt]
    · intro _
      simp [updateStep, hp, hlt]

/-- C5 witness: probe output `"2023-01-01; Ardupy with seeed"` against a
catalog version `"2023-06-01"`: the board is older, so flashing is
initiated. -/
theorem c5_update_decision_witness :
    ((updateStep false (.jobj [("firmware", .jobj [("version", .jstr "2023-06-01")])])
        (some (asciiBytes "2023-01-01; Ardupy with seeed"))).called_download = true ↔
      (PDate.mk 2023 1 1).key < (PDate.mk 2023 6 1).key) ∧
    (¬ (PDate.mk 2023 1 1).key < (PDate.mk 2023 6 1).key →
      updateStep false (.jobj [("firmware", .jobj [("version", .jstr "2023-06-01")])])
        (some (asciiBytes "2023-01-01; Ardupy with seeed")) = ⟨false, false, true, true⟩) :=
  c5_update_decision (asciiBytes "2023-01-01; Ardupy with seeed")
    (("2023-01-01; Ardupy with seeed").data) 10
    (.jobj [("firmware", .jobj [("version", .jstr "2023-06-01")])])
    ⟨2023, 6, 1⟩ ⟨2023, 1, 1⟩ rfl rfl (by decide) rfl rfl

/-! ### Monad plumbing helpers -/

/-- Destructure a successful `Except` bind. -/
theorem exceptBind_ok {α β : Type} {x : Except String α}
    {f : α → Except String β} {b : β} (h : x >>= f = Except.ok b) :
    ∃ a, x = Except.ok a ∧ f a = Except.ok b := by
  cases x with
  | error e => exact Except.noConfusion h
  | ok a => exact ⟨a, rfl, h⟩

/-- `Except.ok` bind reduction. -/
theorem ebind_ok {α β : Type} (a : α) (f : α → Except String β) :
    (Except.ok a : Except String α) >>= f = f a := rfl

/-- `Except.error` bind reduction. -/
theorem ebind_err {α β : Type} (e : String) (f : α → Except String β) :
    (Except.error e : Except String α) >>= f = Except.error e := rfl

/-- `pure` on `Except` is `Except.ok`. -/
theorem epure_eq {α : Type} (a : α) :
    (pure a : Except String α) = Except.ok a := rfl

/-! ### C3 — the stall timer is disarmed at the end of every progress event -/

/-- C3: the claim says the stall timer is armed on every progress event
and fires if no further progress arrives within `readTimeout`.  In the
code `onProgress` calls `readTimer.start(...)` on entry but
`readTimer.stop()` before returning, so after *every* progress handler the
read timer is off and a subsequent `readTimeout` delivery is impossible
(it leaves the state unchanged): the truncate-and-reissue path of
`onReadTimeOut` is unreachable from a stall, and a stalled download hangs
instead. -/
theorem c3_stall_timer_disarmed_after_progress :
    ∀ (s : DState) (chunk : List Nat) (writeFails : Bool) (cur total : Nat)
      (s' : DState),
      dOnProgress chunk writeFails cur total s = .ok s' →
      s'.readTimerOn = false ∧ dStep s' DEvent.readTimeout = .ok s' := by
  intro s chunk wf cur total s' h
  unfold dOnProgress at h
  obtain ⟨s2, _, h⟩ := exceptBind_ok h
  obtain ⟨s3, _, h⟩ := exceptBind_ok h
  rw [epure_eq] at h
  injection h with h
  subst h
  exact ⟨rfl, by simp [dStep]⟩

/-- C3 witness: a concrete state right after a mid-transfer progress
event (5 of 10 bytes): the read timer is off, so the stall-timeout event
cannot fire. -/
theorem c3_stall_timer_disarmed_after_progress_witness :
    (DState.mk 2 1 false true false true true false true (some [7]) none).readTimerOn = false ∧
    dStep (DState.mk 2 1 false true false true true false true (some [7]) none)
      DEvent.readTimeout =
      .ok (DState.mk 2 1 false true false true true false true (some [7]) none) :=
  c3_stall_timer_disarmed_after_progress
    (DState.mk 2 1 false true false true true false true (some []) none)
    [7] false 5 10
    (DState.mk 2 1 false true false true true false true (some [7]) none) rfl

/-! ### C7 — extraction failure and the library-refresh loop -/

/-- C7 (counterexample): the claim says that after an extraction failure
the refresh loop continues with the next library.  With a two-library
manifest where `A.zip` downloads but fails to extract and `B.zip` would
succeed, `check_new_lib` returns immediately after `A.zip`: `B.zip` is
never downloaded, never extracted, never recorded — the result is
identical to running with a manifest that does not contain `B.zip` at
all. -/
theorem c7_counterexample :
    check_new_lib true
      (.ok (.jarr [
        .jobj [("name", .jstr "A.zip"), ("version", .jstr "2024-01-02"), ("path", .jstr "u")],
        .jobj [("name", .jstr "B.zip"), ("version", .jstr "2024-01-02"), ("path", .jstr "v")]]))
      (.ok (.jobj []))
      ⟨fun _ => true, fun n => n = "A.zip"⟩ ⟨[], [], []⟩ =
      .ok (some ⟨⟨[], ["A.zip"], []⟩,
        ["downloading A.zip, please wait patiently",
         "extracting A.zip...",
         "A.zip extract failure"], false⟩) ∧
    check_new_lib true
      (.ok (.jarr [
        .jobj [("name", .jstr "A.zip"), ("version", .jstr "2024-01-02"), ("path", .jstr "u")],
        .jobj [("name", .jstr "B.zip"), ("version", .jstr "2024-01-02"), ("path", .jstr "v")]]))
      (.ok (.jobj []))
      ⟨fun _ => true, fun n => n = "A.zip"⟩ ⟨[], [], []⟩ =
    check_new_lib true
      (.ok (.jarr [
        .jobj [("name", .jstr "A.zip"), ("version", .jstr "2024-01-02"), ("path", .jstr "u")]]))
      (.ok (.jobj []))
      ⟨fun _ => true, fun n => n = "A.zip"⟩ ⟨[], [], []⟩ := ⟨rfl, rfl⟩

/-- C7 (amended): when extracting a downloaded library archive fails, the
partially extracted target directory is removed and a status message is
shown, but `check_new_lib` returns immediately: the remaining manifest
entries are not processed (the result does not depend on them) and the
info file is not persisted. -/
theorem c7_amended_unzip_failure_aborts_refresh :
    ∀ (oracle : LibOracle) (new : JValue) (rest rest' : List JValue)
      (env : LibEnv) (stats : List String) (hasNew : Bool)
      (nam ver : String) (pth : JValue) (msg : String),
      jGet new "name" = .ok (.jstr nam) →
      jGet new "version" = .ok (.jstr ver) →
      jGet new "path" = .ok pth →
      libNeeds env nam ver = .ok (some msg) →
      oracle.dlOk nam = true →
      oracle.unzipFails nam = true →
      pyReplace nam ".zip" "" ∉ env.muDirs →
      libLoop oracle (new :: rest) env stats hasNew =
        .ok ⟨⟨env.lib_dic,
              (if nam ∈ env.seeedFiles then env.seeedFiles
               else nam :: env.seeedFiles),
              env.muDirs⟩,
            stats ++ [msg, "extracting " ++ nam ++ "...", nam ++ " extract failure"],
            hasNew, true⟩ ∧
      libLoop oracle (new :: rest) env stats hasNew =
        libLoop oracle (new :: rest') env stats hasNew := by
  intro oracle new rest rest' env stats hasNew nam ver pth msg
  intro hname hver hpth hneeds hdl hunzip hdir
  have key : ∀ r : List JValue,
      libLoop oracle (new :: r) env stats hasNew =
        .ok ⟨⟨env.lib_dic,
              (if nam ∈ env.seeedFiles then env.seeedFiles
               else nam :: env.seeedFiles),
              env.muDirs⟩,
            stats ++ [msg, "extracting " ++ nam ++ "...", nam ++ " extract failure"],
            hasNew, true⟩ := by
    intro r
    rw [libLoop, hname]
    rw [ebind_ok]
    simp only [jAsStr, ebind_ok, hver, hneeds]
    rw [hpth]
    simp only [ebind_ok, hdl]
    simp only [unzipM, hunzip]
    rw [if_neg hdir]
    simp only [if_true, Bool.true_eq_false, if_false, List.erase_cons_head]
    simp [List.append_assoc]
  exact ⟨key rest, by rw [key rest, key rest']⟩

/-- C7 amended witness: a concrete failing extraction with a non-empty
remainder of the manifest. -/
theorem c7_amended_unzip_failure_aborts_refresh_witness :
    libLoop ⟨fun _ => true, fun _ => true⟩
      [.jobj [("name", .jstr "A.zip"), ("version", .jstr "2024-01-02"), ("path", .jstr "u")], .jnull]
      ⟨[], [], []⟩ [] false =
      .ok ⟨⟨[], ["A.zip"], []⟩,
        ["downloading A.zip, please wait patiently",
         "extracting A.zip...",
         "A.zip extract failure"], false, true⟩ ∧
    libLoop ⟨fun _ => true, fun _ => true⟩
      [.jobj [("name", .jstr "A.zip"), ("version", .jstr "2024-01-02"), ("path", .jstr "u")], .jnull]
      ⟨[], [], []⟩ [] false =
    libLoop ⟨fun _ => true, fun _ => true⟩
      [.jobj [("name", .jstr "A.zip"), ("version", .jstr "2024-01-02"), ("path", .jstr "u")]]
      ⟨[], [], []⟩ [] false :=
  c7_amended_unzip_failure_aborts_refresh
    ⟨fun _ => true, fun _ => true⟩
    (.jobj [("name", .jstr "A.zip"), ("version", .jstr "2024-01-02"), ("path", .jstr "u")])
    [.jnull] [] ⟨[], [], []⟩ [] false "A.zip" "2024-01-02" (.jstr "u")
    "downloading A.zip, please wait patiently"
    rfl rfl rfl rfl rfl rfl (by simp)


/-! ### Downloader lemmas: the backup file is never touched inside the
event loop, and the loop's behaviour does not depend on it.

All handler functions commute with `setBak`; the bridge equalities below
are definitional. -/

/-- Overriding with the current backup is the identity. -/
theorem setBak_self (s : DState) : setBak s.fsBak s = s := rfl

/-- Projections through `setBak` (all definitional). -/
theorem setBak_finConnected (b : Option (List Nat)) (s : DState) :
    (setBak b s).finConnected = s.finConnected := rfl

theorem setBak_try_time (b : Option (List Nat)) (s : DState) :
    (setBak b s).try_time = s.try_time := rfl

theorem setBak_replyBound (b : Option (List Nat)) (s : DState) :
    (setBak b s).replyBound = s.replyBound := rfl

theorem setBak_reqTimerOn (b : Option (List Nat)) (s : DState) :
    (setBak b s).reqTimerOn = s.reqTimerOn := rfl

theorem setBak_readTimerOn (b : Option (List Nat)) (s : DState) :
    (setBak b s).readTimerOn = s.readTimerOn := rfl

theorem setBak_readyConnected (b : Option (List Nat)) (s : DState) :
    (setBak b s).readyConnected = s.readyConnected := rfl

theorem setBak_loopQuit (b : Option (List Nat)) (s : DState) :
    (setBak b s).loopQuit = s.loopQuit := rfl

theorem setBak_retStatus (b : Option (List Nat)) (s : DState) :
    (setBak b s).retStatus = s.retStatus := rfl

theorem setBak_fsDes (b : Option (List Nat)) (s : DState) :
    (setBak b s).fsDes = s.fsDes := rfl

theorem setBak_fsBak (b : Option (List Nat)) (s : DState) :
    (setBak b s).fsBak = b := rfl

theorem setBak_getCount (b : Option (List Nat)) (s : DState) :
    (setBak b s).getCount = s.getCount := rfl

/-- Bridge: field updates slide through `setBak` (definitional). -/
theorem setBak_upd_loopQuit (b : Option (List Nat)) (s : DState) :
    ({ setBak b s with loopQuit := true } : DState) =
      setBak b { s with loopQuit := true } := rfl

theorem setBak_upd_reqOff (b : Option (List Nat)) (s : DState) :
    ({ setBak b s with reqTimerOn := false } : DState) =
      setBak b { s with reqTimerOn := false } := rfl

theorem setBak_upd_reqOn (b : Option (List Nat)) (s : DState) :
    ({ setBak b s with reqTimerOn := true } : DState) =
      setBak b { s with reqTimerOn := true } := rfl

theorem setBak_upd_readOn (b : Option (List Nat)) (s : DState) :
    ({ setBak b s with readTimerOn := true } : DState) =
      setBak b { s with readTimerOn := true } := rfl

theorem setBak_upd_readOff (b : Option (List Nat)) (s : DState) :
    ({ setBak b s with readTimerOn := false } : DState) =
      setBak b { s with readTimerOn := false } := rfl

theorem setBak_upd_truncate (b : Option (List Nat)) (s : DState) :
    ({ setBak b s with readTimerOn := false, fsDes := some [] } : DState) =
      setBak b { s with readTimerOn := false, fsDes := some [] } := rfl

theorem setBak_upd_retTrue (b : Option (List Nat)) (s : DState) :
    ({ setBak b s with retStatus := true } : DState) =
      setBak b { s with retStatus := true } := rfl

theorem setBak_upd_request (b : Option (List Nat)) (s : DState) :
    ({ setBak b s with replyBound := true, readyConnected := true, getCount := s.getCount + 1, try_time := s.try_time - 1 } : DState) =
      setBak b { s with replyBound := true, readyConnected := true, getCount := s.getCount + 1, try_time := s.try_time - 1 } := rfl

theorem setBak_upd_startRead (b : Option (List Nat)) (s : DState) :
    ({ setBak b s with reqTimerOn := false, readyConnected := false } : DState) =
      setBak b { s with reqTimerOn := false, readyConnected := false } := rfl

theorem setBak_upd_write (b : Option (List Nat)) (s : DState) (chunk : List Nat) :
    ({ setBak b s with fsDes := some (((setBak b s).fsDes.getD []) ++ chunk) } : DState) =
      setBak b { s with fsDes := some ((s.fsDes.getD []) ++ chunk) } := rfl

/-- `emitFinished` commutes with `setBak`. -/
theorem emitFinished_bakov (b : Option (List Nat)) (s : DState) :
    emitFinished (setBak b s) = setBak b (emitFinished s) := by
  unfold emitFinished
  rw [setBak_finConnected]
  by_cases h : s.finConnected = true
  · rw [if_pos h, if_pos h]
    exact setBak_upd_loopQuit b s
  · rw [if_neg h, if_neg h]

/-- `dRequest` commutes with `setBak`. -/
theorem dRequest_bakov (b : Option (List Nat)) (s : DState) :
    dRequest (setBak b s) = setBak b (dRequest s) := by
  unfold dRequest
  rw [setBak_try_time]
  by_cases h : s.try_time ≠ 0
  · rw [if_pos h, if_pos h]
    exact setBak_upd_request b s
  · rw [if_neg h, if_neg h, emitFinished_bakov]
    exact setBak_upd_reqOff b (emitFinished s)

/-- `dDestroy` commutes with `setBak`. -/
theorem dDestroy_bakov (b : Option (List Nat)) (s : DState) :
    dDestroy (setBak b s) = (dDestroy s).map (setBak b) := by
  unfold dDestroy
  rw [setBak_replyBound]
  by_cases h : s.replyBound = true
  · rw [if_pos h, if_pos h]
    rfl
  · rw [if_neg h, if_neg h]
    rfl

/-- `dRequestAgain` commutes with `setBak`. -/
theorem dRequestAgain_bakov (b : Option (List Nat)) (s : DState) :
    dRequestAgain (setBak b s) = (dRequestAgain s).map (setBak b) := by
  unfold dRequestAgain
  rw [dDestroy_bakov]
  cases h : dDestroy s with
  | error e => rfl
  | ok u =>
    simp only [Except.map, ebind_ok, epure_eq]
    exact congrArg Except.ok (dRequest_bakov b u)

/-- `dOnReadTimeOut` commutes with `setBak`. -/
theorem dOnReadTimeOut_bakov (b : Option (List Nat)) (s : DState) :
    dOnReadTimeOut (setBak b s) = (dOnReadTimeOut s).map (setBak b) := by
  have h1 : dOnReadTimeOut (setBak b s) =
      dRequestAgain { setBak b s with readTimerOn := false, fsDes := some [] } >>=
        fun u => pure { u with reqTimerOn := true } := rfl
  have h2 : dOnReadTimeOut s =
      dRequestAgain { s with readTimerOn := false, fsDes := some [] } >>=
        fun u => pure { u with reqTimerOn := true } := rfl
  rw [h1, h2, setBak_upd_truncate, dRequestAgain_bakov]
  cases h : dRequestAgain { s with readTimerOn := false, fsDes := some [] } with
  | error e => rfl
  | ok u =>
    simp only [Except.map, ebind_ok, epure_eq]
    exact congrArg Except.ok (setBak_upd_reqOn b u)

/-- `dOnReqTimeOut` commutes with `setBak`. -/
theorem dOnReqTimeOut_bakov (b : Option (List Nat)) (s : DState) :
    dOnReqTimeOut (setBak b s) = (dOnReqTimeOut s).map (setBak b) :=
  dRequestAgain_bakov b s

/-- `dStartRead` commutes with `setBak`. -/
theorem dStartRead_bakov (b : Option (List Nat)) (s : DState) :
    dStartRead (setBak b s) = setBak b (dStartRead s) := by
  unfold dStartRead
  exact setBak_upd_startRead b s

/-- `dEndRead` commutes with `setBak`. -/
theorem dEndRead_bakov (suc : Bool) (b : Option (List Nat)) (s : DState) :
    dEndRead suc (setBak b s) = (dEndRead suc s).map (setBak b) := by
  cases suc with
  | true =>
    have h1 : dEndRead true (setBak b s) =
        dDestroy (emitFinished { setBak b s with retStatus := true }) := rfl
    have h2 : dEndRead true s =
        dDestroy (emitFinished { s with retStatus := true }) := rfl
    rw [h1, h2, setBak_upd_retTrue, emitFinished_bakov, dDestroy_bakov]
  | false =>
    have h1 : dEndRead false (setBak b s) =
        dRequestAgain (setBak b s) >>= fun u => pure { u with reqTimerOn := true } := rfl
    have h2 : dEndRead false s =
        dRequestAgain s >>= fun u => pure { u with reqTimerOn := true } := rfl
    rw [h1, h2, dRequestAgain_bakov]
    cases h : dRequestAgain s with
    | error e => rfl
    | ok u =>
      simp only [Except.map, ebind_ok, epure_eq]
      exact congrArg Except.ok (setBak_upd_reqOn b u)

/-- `dWriteFile` commutes with `setBak`. -/
theorem dWriteFile_bakov (chunk : List Nat) (wf : Bool) (b : Option (List Nat))
    (s : DState) :
    dWriteFile chunk wf (setBak b s) =
      (setBak b (dWriteFile chunk wf s).1, (dWriteFile chunk wf s).2) := by
  cases wf with
  | true => rfl
  | false => rfl

/-- `dProgressWrite` commutes with `setBak`. -/
theorem dProgressWrite_bakov (chunk : List Nat) (wf : Bool)
    (b : Option (List Nat)) (s : DState) :
    dProgressWrite chunk wf (setBak b s) =
      (dProgressWrite chunk wf s).map (setBak b) := by
  unfold dProgressWrite
  rw [setBak_upd_readOn, dWriteFile_bakov]
  dsimp only
  by_cases hw : (dWriteFile chunk wf { s with readTimerOn := true }).2 = false
  · rw [if_pos hw, if_pos hw]
    exact dEndRead_bakov false b (dWriteFile chunk wf { s with readTimerOn := true }).1
  · rw [if_neg hw, if_neg hw]
    rfl

/-- `dProgressComplete` commutes with `setBak`. -/
theorem dProgressComplete_bakov (cur total : Nat) (b : Option (List Nat))
    (s : DState) :
    dProgressComplete cur total (setBak b s) =
      (dProgressComplete cur total s).map (setBak b) := by
  unfold dProgressComplete
  by_cases hc : cur = total ∧ 0 < total
  · rw [if_pos hc, if_pos hc]
    exact dEndRead_bakov true b s
  · rw [if_neg hc, if_neg hc]
    rfl

/-- `dOnProgress` commutes with `setBak`. -/
theorem dOnProgress_bakov (chunk : List Nat) (wf : Bool) (cur total : Nat)
    (b : Option (List Nat)) (s : DState) :
    dOnProgress chunk wf cur total (setBak b s) =
      (dOnProgress chunk wf cur total s).map (setBak b) := by
  unfold dOnProgress
  rw [dProgressWrite_bakov]
  cases h1 : dProgressWrite chunk wf s with
  | error e => rfl
  | ok u =>
    simp only [Except.map, ebind_ok]
    rw [dProgressComplete_bakov]
    cases h2 : dProgressComplete cur total u with
    | error e => rfl
    | ok v =>
      simp only [Except.map, ebind_ok, epure_eq]
      exact congrArg Except.ok (setBak_upd_readOff b v)

/-- `dStep` commutes with `setBak`. -/
theorem dStep_bakov (e : DEvent) (b : Option (List Nat)) (s : DState) :
    dStep (setBak b s) e = (dStep s e).map (setBak b) := by
  cases e with
  | reqTimeout =>
    show (if (setBak b s).reqTimerOn then dOnReqTimeOut (setBak b s) else .ok (setBak b s)) = _
    rw [setBak_reqTimerOn]
    by_cases h : s.reqTimerOn = true
    · rw [if_pos h, dOnReqTimeOut_bakov]
      show _ = Except.map (setBak b) (if s.reqTimerOn then dOnReqTimeOut s else .ok s)
      rw [if_pos h]
    · rw [if_neg h]
      show _ = Except.map (setBak b) (if s.reqTimerOn then dOnReqTimeOut s else .ok s)
      rw [if_neg h]
      rfl
  | readTimeout =>
    show (if (setBak b s).readTimerOn then dOnReadTimeOut (setBak b s) else .ok (setBak b s)) = _
    rw [setBak_readTimerOn]
    by_cases h : s.readTimerOn = true
    · rw [if_pos h, dOnReadTimeOut_bakov]
      show _ = Except.map (setBak b) (if s.readTimerOn then dOnReadTimeOut s else .ok s)
      rw [if_pos h]
    · rw [if_neg h]
      show _ = Except.map (setBak b) (if s.readTimerOn then dOnReadTimeOut s else .ok s)
      rw [if_neg h]
      rfl
  | readyRead =>
    show (if (setBak b s).readyConnected then Except.ok (dStartRead (setBak b s)) else .ok (setBak b s)) = _
    rw [setBak_readyConnected]
    by_cases h : s.readyConnected = true
    · rw [if_pos h, dStartRead_bakov]
      show _ = Except.map (setBak b) (if s.readyConnected then Except.ok (dStartRead s) else .ok s)
      rw [if_pos h]
      rfl
    · rw [if_neg h]
      show _ = Except.map (setBak b) (if s.readyConnected then Except.ok (dStartRead s) else .ok s)
      rw [if_neg h]
      rfl
  | progress chunk wf cur total =>
    exact dOnProgress_bakov chunk wf cur total b s

/-- Running the event loop commutes with overriding the backup slot. -/
theorem runEvents_bakov (tr : List DEvent) :
    ∀ (b : Option (List Nat)) (s : DState),
      runEvents (setBak b s) tr = (runEvents s tr).map (setBak b) := by
  induction tr with
  | nil => intro b s; rfl
  | cons e es ih =>
    intro b s
    show (if (setBak b s).loopQuit then Except.ok (setBak b s)
      else dStep (setBak b s) e >>= fun s' => runEvents s' es) = _
    rw [setBak_loopQuit]
    by_cases hq : s.loopQuit = true
    · rw [if_pos hq]
      show _ = Except.map (setBak b)
        (if s.loopQuit then Except.ok s else dStep s e >>= fun s' => runEvents s' es)
      rw [if_pos hq]
      rfl
    · rw [if_neg hq, dStep_bakov]
      show _ = Except.map (setBak b)
        (if s.loopQuit then Except.ok s else dStep s e >>= fun s' => runEvents s' es)
      rw [if_neg hq]
      cases h : dStep s e with
      | error e' => rfl
      | ok u =>
        simp only [Except.map, ebind_ok]
        exact ih b u

/-- The event loop never touches the backup file. -/
theorem runEvents_fsBak (tr : List DEvent) (s s' : DState)
    (h : runEvents s tr = .ok s') : s'.fsBak = s.fsBak := by
  have hb := runEvents_bakov tr s.fsBak s
  rw [setBak_self, h] at hb
  simp only [Except.map] at hb
  injection hb with hb
  have h2 := congrArg DState.fsBak hb
  exact h2

/-- The constructor's state depends on the initial destination content
only through the backup slot (the destination itself is truncated by
`open(..., "wb")`), and not at all on a stale `.bak` file. -/
theorem initDState_eq (des0 bak0 : Option (List Nat)) (t : Nat) :
    initDState des0 bak0 t = setBak des0 (initDState none none t) := by
  unfold initDState setBak
  cases des0 <;> cases bak0 <;> by_cases h : t ≠ 0 <;>
    simp [dRequest, emitFinished, h]

/-- The backup slot right after the constructor holds the prior
destination content. -/
theorem initDState_fsBak (des0 bak0 : Option (List Nat)) (t : Nat) :
    (initDState des0 bak0 t).fsBak = des0 := by
  rw [initDState_eq]
  rfl

/-- Failure rollback: with `retStatus` false the destination is removed
and the `.bak` is renamed back. -/
theorem finalizeDL_fail (s : DState) (h : s.retStatus = false) :
    finalizeDL s = (s.fsBak, none) := by
  unfold finalizeDL
  rw [if_pos h]
  cases hb : s.fsBak with
  | some c => rfl
  | none => cases hd : s.fsDes <;> simp

/-- Success: the destination keeps the downloaded bytes and the `.bak` is
deleted. -/
theorem finalizeDL_succ (s : DState) (h : s.retStatus = true) :
    finalizeDL s = (s.fsDes, none) := by
  unfold finalizeDL
  rw [h]
  cases hb : s.fsBak <;> simp

/-! ### C1 — rollback on failure, atomic replace on success -/

/-- C1: a `Downloader` call that ends in final failure leaves the
destination byte-identical to its pre-call content (absent if it was
absent), with the `.bak` sibling gone; a call that ends in success
deletes the `.bak` sibling, and the destination content is then
independent of whatever the destination held before the call (the same
event trace started from any prior content ends in the same bytes) —
never a mix of old and new bytes. -/
theorem c1_failure_rollback_success_replace :
    ∀ (des0 bak0 : Option (List Nat)) (t : Nat) (tr : List DEvent)
      (r : DLResult),
      downloaderRun des0 bak0 t tr = .ok (some r) →
      (r.retStatus = false → r.des = des0 ∧ r.bak = none) ∧
      (r.retStatus = true → r.bak = none ∧
        ∀ des0' bak0', ∃ r', downloaderRun des0' bak0' t tr = .ok (some r') ∧
          r'.retStatus = true ∧ r'.des = r.des) := by
  intro des0 bak0 t tr r h
  unfold downloaderRun at h
  obtain ⟨s, hs, h⟩ := exceptBind_ok h
  by_cases hq : s.loopQuit = true
  · rw [if_pos hq, epure_eq] at h
    injection h with h
    injection h with h
    subst h
    constructor
    · intro hrf
      have hsf : s.retStatus = false := hrf
      have hbak : s.fsBak = des0 := by
        rw [runEvents_fsBak tr _ s hs, initDState_fsBak]
      constructor
      · show (finalizeDL s).1 = des0
        rw [finalizeDL_fail s hsf]
        exact hbak
      · show (finalizeDL s).2 = none
        rw [finalizeDL_fail s hsf]
    · intro hrt
      have hst : s.retStatus = true := hrt
      constructor
      · show (finalizeDL s).2 = none
        rw [finalizeDL_succ s hst]
      · intro des0' bak0'
        have hs0 : runEvents (setBak des0 (initDState none none t)) tr = .ok s := by
          rw [← initDState_eq]
          exact hs
        rw [runEvents_bakov] at hs0
        cases hbase : runEvents (initDState none none t) tr with
        | error e =>
          rw [hbase] at hs0
          exact Except.noConfusion hs0
        | ok s0 =>
          rw [hbase] at hs0
          simp only [Except.map] at hs0
          injection hs0 with hs0
          have hrun' : runEvents (initDState des0' bak0' t) tr =
              .ok (setBak des0' s0) := by
            rw [initDState_eq, runEvents_bakov, hbase]
            rfl
          have hq0 : s0.loopQuit = true := by
            rw [← setBak_loopQuit des0 s0, hs0]
            exact hq
          have hst0 : s0.retStatus = true := by
            rw [← setBak_retStatus des0 s0, hs0]
            exact hst
          refine ⟨⟨true, s0.fsDes, none, s0.getCount⟩, ?_, rfl, ?_⟩
          · unfold downloaderRun
            rw [hrun', ebind_ok,
              if_pos (show (setBak des0' s0).loopQuit = true from hq0),
              finalizeDL_succ _ (show (setBak des0' s0).retStatus = true from hst0),
              epure_eq]
            have : (setBak des0' s0).retStatus = true := hst0
            rw [show (setBak des0' s0).fsDes = s0.fsDes from rfl,
              show (setBak des0' s0).getCount = s0.getCount from rfl, this]
          · show s0.fsDes = (finalizeDL s).1
            rw [finalizeDL_succ s hst]
            show s0.fsDes = s.fsDes
            rw [← hs0]
            rfl
  · rw [if_neg hq, epure_eq] at h
    injection h with h
    exact Option.noConfusion h

/-- C1 witness: one attempt, request times out, prior destination content
`[9]` is restored and the backup removed. -/
theorem c1_failure_rollback_success_replace_witness :
    downloaderRun (some [9]) none 1 [DEvent.reqTimeout] =
      .ok (some ⟨false, some [9], none, 1⟩) ∧
    ((DLResult.mk false (some [9]) none 1).retStatus = false →
      (DLResult.mk false (some [9]) none 1).des = some [9] ∧
      (DLResult.mk false (some [9]) none 1).bak = none) :=
  ⟨rfl, (c1_failure_rollback_success_replace (some [9]) none 1
    [DEvent.reqTimeout] ⟨false, some [9], none, 1⟩ rfl).1⟩

/-! ### C4 — the attempt budget is consumed exactly -/

/-- Computation of `request()` while attempts remain. -/
theorem dRequest_pos (s : DState) (k : Nat) (h : s.try_time = k + 1) :
    dRequest s = { s with replyBound := true, readyConnected := true, getCount := s.getCount + 1, try_time := k } := by
  unfold dRequest
  rw [h, if_pos (Nat.succ_ne_zero k)]
  simp

/-- Computation of `request()` once attempts are exhausted: `finished` is
emitted (quitting the loop when connected) and the request timer stops. -/
theorem dRequest_zero (s : DState) (h : s.try_time = 0)
    (hfc : s.finConnected = true) :
    dRequest s = { s with loopQuit := true, reqTimerOn := false } := by
  unfold dRequest emitFinished
  rw [h, if_neg (by omega : ¬(0 : Nat) ≠ 0), if_pos hfc]

/-- A request-timer timeout delivers `requestAgain`. -/
theorem dStep_reqTimeout_eq (s : DState) (hrt : s.reqTimerOn = true)
    (hrb : s.replyBound = true) :
    dStep s DEvent.reqTimeout = .ok (dRequest s) := by
  show (if s.reqTimerOn then dOnReqTimeOut s else .ok s) = _
  rw [if_pos hrt]
  unfold dOnReqTimeOut dRequestAgain dDestroy
  rw [if_pos hrb]
  rfl

/-- A progress event whose `writeFile` raises aborts the attempt and
reissues the request. -/
theorem dProgressWrite_fail_eq (chunk : List Nat) (s : DState)
    (h : s.replyBound = true) :
    dProgressWrite chunk true s =
      .ok { dRequest { s with readTimerOn := true } with reqTimerOn := true } := by
  simp only [dProgressWrite]
  have hw : dWriteFile chunk true { s with readTimerOn := true } =
      ({ s with readTimerOn := true }, false) := rfl
  rw [hw]
  have e2 : dEndRead false ({ s with readTimerOn := true } : DState) =
      dRequestAgain { s with readTimerOn := true } >>=
        fun u => pure { u with reqTimerOn := true } := rfl
  rw [if_pos rfl, e2]
  unfold dRequestAgain dDestroy
  rw [show ({ s with readTimerOn := true } : DState).replyBound = s.replyBound from rfl,
    if_pos h]
  rfl

/-- Full progress handler for a failing, non-final write. -/
theorem dOnProgress_fail_eq (chunk : List Nat) (cur total : Nat) (s : DState)
    (h : s.replyBound = true) (hc : ¬(cur = total ∧ 0 < total)) :
    dOnProgress chunk true cur total s =
      .ok { dRequest { s with readTimerOn := true } with
        reqTimerOn := true, readTimerOn := false } := by
  unfold dOnProgress
  rw [dProgressWrite_fail_eq chunk s h, ebind_ok]
  unfold dProgressComplete
  rw [if_neg hc]
  rfl

/-- In a state whose invariants hold (loop running, reply bound, finished
connected, request timer armed), a trace of `try_time + 1` failing events
quits the loop with `retStatus` still false after issuing exactly
`try_time` further requests. -/
theorem runEvents_fail_aux :
    ∀ (tr : List DEvent) (s : DState),
      (∀ e ∈ tr, failEvent e = true) →
      tr.length = s.try_time + 1 →
      s.loopQuit = false → s.replyBound = true → s.finConnected = true →
      s.retStatus = false → s.reqTimerOn = true →
      ∃ s', runEvents s tr = .ok s' ∧ s'.loopQuit = true ∧
        s'.retStatus = false ∧ s'.getCount = s.getCount + s.try_time := by
  intro tr
  induction tr with
  | nil =>
    intro s _ hlen _ _ _ _ _
    exact absurd hlen (by simp)
  | cons e es ih =>
    intro s hall hlen hq hrb hfc hrs hrt
    have hfe : failEvent e = true := hall e (List.mem_cons_self e es)
    have hrun : runEvents s (e :: es) = dStep s e >>= fun u => runEvents u es := by
      show (if s.loopQuit then Except.ok s else _) = _
      rw [hq]
      rfl
    cases e with
    | readTimeout => exact absurd hfe (by simp [failEvent])
    | readyRead => exact absurd hfe (by simp [failEvent])
    | reqTimeout =>
      rw [hrun, dStep_reqTimeout_eq s hrt hrb, ebind_ok]
      cases htt : s.try_time with
      | zero =>
        have hes : es = [] := by
          rw [htt] at hlen
          simpa using hlen
        subst hes
        rw [dRequest_zero s htt hfc]
        refine ⟨_, rfl, rfl, hrs, ?_⟩
        simp [htt]
      | succ k =>
        rw [dRequest_pos s k htt]
        have hlen' : es.length = k + 1 := by
          rw [htt] at hlen
          simpa using hlen
        obtain ⟨s', h1, h2, h3, h4⟩ :=
          ih { s with replyBound := true, readyConnected := true, getCount := s.getCount + 1, try_time := k }
            (fun x hx => hall x (List.mem_cons_of_mem _ hx))
            hlen' hq rfl hfc hrs hrt
        refine ⟨s', h1, h2, h3, ?_⟩
        have h4' : s'.getCount = s.getCount + 1 + k := h4
        rw [h4']
        omega
    | progress chunk wf cur total =>
      have hfe2 := hfe
      simp [failEvent] at hfe2
      obtain ⟨hwf, hc0⟩ := hfe2
      subst hwf
      have hc : ¬(cur = total ∧ 0 < total) := by
        rintro ⟨hct, hpos⟩
        rcases hc0 with h | h
        · exact h hct
        · omega
      cases htt : s.try_time with
      | zero =>
        have hes : es = [] := by
          rw [htt] at hlen
          simpa using hlen
        subst hes
        rw [hrun,
          show dStep s (DEvent.progress chunk true cur total) =
            dOnProgress chunk true cur total s from rfl,
          dOnProgress_fail_eq chunk cur total s hrb hc, ebind_ok]
        rw [dRequest_zero { s with readTimerOn := true }
          (show ({ s with readTimerOn := true } : DState).try_time = 0 from htt)
          (show ({ s with readTimerOn := true } : DState).finConnected = true from hfc)]
        refine ⟨_, rfl, rfl, hrs, ?_⟩
        simp
      | succ k =>
        rw [hrun,
          show dStep s (DEvent.progress chunk true cur total) =
            dOnProgress chunk true cur total s from rfl,
          dOnProgress_fail_eq chunk cur total s hrb hc, ebind_ok]
        rw [dRequest_pos { s with readTimerOn := true } k
          (show ({ s with readTimerOn := true } : DState).try_time = k + 1 from htt)]
        have hlen' : es.length = k + 1 := by
          rw [htt] at hlen
          simpa using hlen
        obtain ⟨s', h1, h2, h3, h4⟩ :=
          ih { { s with readTimerOn := true } with replyBound := true, readyConnected := true, getCount := s.getCount + 1, try_time := k, reqTimerOn := true, readTimerOn := false }
            (fun x hx => hall x (List.mem_cons_of_mem _ hx))
            hlen' hq rfl hfc hrs rfl
        refine ⟨s', h1, h2, h3, ?_⟩
        have h4' : s'.getCount = s.getCount + 1 + k := h4
        rw [h4']
        omega

/-- C4: for every attempt budget `N ≥ 1`, a download whose every delivery
is a failing one (request timeout or failed write) and which signals
final failure after `N` such deliveries has issued exactly `N` requests —
not `N + 1` and not `N - 1`. -/
theorem c4_attempt_budget_exact :
    ∀ (N : Nat), 1 ≤ N →
      ∀ (tr : List DEvent), (∀ e ∈ tr, failEvent e = true) → tr.length = N →
      ∃ r : DLResult, downloaderRun none none N tr = .ok (some r) ∧
        r.getCount = N ∧ r.retStatus = false := by
  intro N hN tr hall hlen
  obtain ⟨k, rfl⟩ : ∃ k, N = k + 1 := ⟨N - 1, by omega⟩
  have hinit : initDState none none (k + 1) =
      ⟨k, 1, false, true, false, true, true, false, true, some [], none⟩ := by
    simp [initDState, dRequest, emitFinished]
  obtain ⟨s', h1, h2, h3, h4⟩ :=
    runEvents_fail_aux tr
      ⟨k, 1, false, true, false, true, true, false, true, some [], none⟩
      hall (by simpa using hlen) rfl rfl rfl rfl rfl
  refine ⟨⟨s'.retStatus, (finalizeDL s').1, (finalizeDL s').2, s'.getCount⟩, ?_, ?_, h3⟩
  · unfold downloaderRun
    rw [hinit, h1, ebind_ok, if_pos h2, epure_eq]
  · show s'.getCount = k + 1
    have h4' : s'.getCount = 1 + k := h4
    omega

/-- C4 witness: budget 2, two request timeouts, exactly 2 requests. -/
theorem c4_attempt_budget_exact_witness :
    ∃ r : DLResult,
      downloaderRun none none 2 [DEvent.reqTimeout, DEvent.reqTimeout] =
        .ok (some r) ∧ r.getCount = 2 ∧ r.retStatus = false :=
  c4_attempt_budget_exact 2 (by omega) [DEvent.reqTimeout, DEvent.reqTimeout]
    (by decide) rfl

/-! ### Association-list lemmas for the catalog (`setdefault` semantics) -/

/-- A present key survives appending a binding. -/
theorem assocFind_append_of_some {K V : Type} [DecidableEq K]
    {l : List (K × V)} {k' : K} {w : V} (k : K) (v : V)
    (h : assocFind l k' = some w) :
    assocFind (l ++ [(k, v)]) k' = some w := by
  induction l with
  | nil => exact absurd h (by simp [assocFind])
  | cons p rest ih =>
    obtain ⟨pk, pv⟩ := p
    by_cases hp : pk = k'
    · simp [assocFind, hp] at h ⊢
      exact h
    · simp [assocFind, hp] at h ⊢
      exact ih h

/-- An absent key finds only the appended binding. -/
theorem assocFind_append_of_none {K V : Type} [DecidableEq K]
    {l : List (K × V)} {k' : K} (k : K) (v : V)
    (h : assocFind l k' = none) :
    assocFind (l ++ [(k, v)]) k' = if k = k' then some v else none := by
  induction l with
  | nil => simp [assocFind]
  | cons p rest ih =>
    obtain ⟨pk, pv⟩ := p
    by_cases hp : pk = k'
    · simp [assocFind, hp] at h
    · simp [assocFind, hp] at h ⊢
      exact ih h

/-- Lookup after `setdefault`: an existing binding wins, otherwise the new
binding is visible at exactly its key. -/
theorem assocFind_setdefault {K V : Type} [DecidableEq K]
    (l : List (K × V)) (k : K) (v : V) (k' : K) :
    assocFind (setdefault l k v) k' =
      match assocFind l k' with
      | some w => some w
      | none => if k = k' then some v else none := by
  unfold setdefault
  by_cases h : (assocFind l k).isSome
  · rw [if_pos h]
    cases h' : assocFind l k' with
    | some w => rfl
    | none =>
      by_cases hk : k = k'
      · subst hk
        rw [h'] at h
        simp at h
      · simp [hk]
  · rw [if_neg h]
    cases h' : assocFind l k' with
    | some w => rw [assocFind_append_of_some k v h']
    | none => rw [assocFind_append_of_none k v h']

/-- Lookup in a left fold of `setdefault`s: bindings already present in
the accumulator win; otherwise the first matching entry of the folded
list wins. -/
theorem assocFind_foldl_setdefault {K V : Type} [DecidableEq K] :
    ∀ (es : List (K × V)) (init : List (K × V)) (k : K),
      assocFind (es.foldl (fun d e => setdefault d e.1 e.2) init) k =
        match assocFind init k with
        | some w => some w
        | none => assocFind es k := by
  intro es
  induction es with
  | nil =>
    intro init k
    cases h : assocFind init k <;> simp [h, assocFind]
  | cons e rest ih =>
    intro init k
    obtain ⟨ek, ev⟩ := e
    rw [List.foldl_cons, ih, assocFind_setdefault]
    cases h : assocFind init k with
    | some w => rfl
    | none =>
      by_cases he : ek = k
      · simp [assocFind, he]
      · simp [assocFind, he]

/-- `assocFind` misses exactly the keys that are absent. -/
theorem assocFind_none_iff {K V : Type} [DecidableEq K] :
    ∀ (l : List (K × V)) (k : K),
      assocFind l k = none ↔ k ∉ l.map Prod.fst := by
  intro l
  induction l with
  | nil => intro k; simp [assocFind]
  | cons p rest ih =>
    intro k
    obtain ⟨pk, pv⟩ := p
    by_cases hp : pk = k
    · simp [assocFind, hp]
    · have h1 : assocFind ((pk, pv) :: rest) k = assocFind rest k := by
        simp [assocFind, hp]
      rw [h1, ih k]
      simp only [List.map_cons, List.mem_cons]
      constructor
      · intro h hmem
        rcases hmem with he | hm
        · exact hp he.symm
        · exact h hm
      · intro h hm
        exact h (Or.inr hm)

/-- `setdefault` keeps the keys duplicate-free. -/
theorem nodup_setdefault {K V : Type} [DecidableEq K]
    (l : List (K × V)) (k : K) (v : V)
    (h : (l.map Prod.fst).Nodup) :
    ((setdefault l k v).map Prod.fst).Nodup := by
  unfold setdefault
  by_cases hp : (assocFind l k).isSome
  · rw [if_pos hp]
    exact h
  · rw [if_neg hp]
    have hn : assocFind l k = none := by
      cases hx : assocFind l k with
      | none => rfl
      | some w => rw [hx] at hp; simp at hp
    have hk : k ∉ l.map Prod.fst := (assocFind_none_iff l k).mp hn
    simp [List.nodup_append, h, hk]

/-- Folding `setdefault`s keeps the keys duplicate-free. -/
theorem nodup_foldl_setdefault {K V : Type} [DecidableEq K] :
    ∀ (es : List (K × V)) (init : List (K × V)),
      (init.map Prod.fst).Nodup →
      ((es.foldl (fun d e => setdefault d e.1 e.2) init).map Prod.fst).Nodup := by
  intro es
  induction es with
  | nil => intro init h; exact h
  | cons e rest ih =>
    intro init h
    rw [List.foldl_cons]
    exact ih _ (nodup_setdefault init e.1 e.2 h)

/-! ### `loadData` structure lemmas -/

/-- One board-loop iteration: `dic_config` gets exactly a `setdefault` of
the extracted entry, membership lists grow accordingly, and `lib_dic`
is untouched. -/
theorem procBoard_proj (isBoot : Bool) (st : InfoState) (board : JValue)
    (st' : InfoState) (h : procBoard isBoot st board = .ok st') :
    ∃ e, boardEntry board = .ok e ∧
      st'.dic_config = setdefault st.dic_config (pyStrPair e.1.1 e.1.2) e.2 ∧
      st'.board_boot = (if isBoot then st.board_boot ++ [e.1] else st.board_boot) ∧
      st'.board_normal = (if isBoot then st.board_normal else st.board_normal ++ [e.1]) := by
  unfold procBoard at h
  obtain ⟨e, he, h⟩ := exceptBind_ok h
  refine ⟨e, he, ?_⟩
  cases isBoot with
  | true =>
    cases hkk : jHasKey board "flashParam" with
    | true =>
      rw [hkk] at h
      have h' : (do
          let v ← jGet board "flashParam"
          let sv ← jAsStr v
          pure ({ st with dic_config := setdefault st.dic_config (pyStrPair e.1.1 e.1.2) e.2, board_boot := st.board_boot ++ [e.1], cmd_param := setdefault st.cmd_param (pyStrPair e.1.1 e.1.2) (pyReplace sv "'" "\"") } : InfoState)) = Except.ok st' := h
      obtain ⟨v, _, h2⟩ := exceptBind_ok h'
      obtain ⟨sv, _, h2⟩ := exceptBind_ok h2
      rw [epure_eq] at h2
      injection h2 with h2
      subst h2
      exact ⟨rfl, rfl, rfl⟩
    | false =>
      rw [hkk] at h
      have h' : Except.ok ({ st with dic_config := setdefault st.dic_config (pyStrPair e.1.1 e.1.2) e.2, board_boot := st.board_boot ++ [e.1] } : InfoState) = Except.ok st' := h
      injection h' with h'
      subst h'
      exact ⟨rfl, rfl, rfl⟩
  | false =>
    have h' : Except.ok ({ st with dic_config := setdefault st.dic_config (pyStrPair e.1.1 e.1.2) e.2, board_normal := st.board_normal ++ [e.1] } : InfoState) = Except.ok st' := h
    injection h' with h'
    subst h'
    exact ⟨rfl, rfl, rfl⟩

/-- Folding a board list: `dic_config` is the `setdefault` fold of the
extracted entries, and the membership lists extend by the entry keys. -/
theorem foldBoards_proj (isBoot : Bool) :
    ∀ (bs : List JValue) (st st' : InfoState)
      (es : List ((Int × Int) × String)),
      bs.foldlM (procBoard isBoot) st = .ok st' →
      bs.mapM boardEntry = .ok es →
      st'.dic_config =
        (es.map keyedEntry).foldl (fun d e => setdefault d e.1 e.2) st.dic_config ∧
      st'.board_boot = (if isBoot then st.board_boot ++ es.map Prod.fst else st.board_boot) ∧
      st'.board_normal = (if isBoot then st.board_normal else st.board_normal ++ es.map Prod.fst) := by
  intro bs
  induction bs with
  | nil =>
    intro st st' es hfold hmap
    rw [show ([] : List JValue).foldlM (procBoard isBoot) st = pure st from rfl,
      epure_eq] at hfold
    injection hfold with hfold
    subst hfold
    rw [show ([] : List JValue).mapM boardEntry = pure [] from rfl, epure_eq] at hmap
    injection hmap with hmap
    subst hmap
    cases isBoot <;> simp
  | cons b rest ih =>
    intro st st' es hfold hmap
    rw [List.foldlM_cons] at hfold
    obtain ⟨st1, hst1, hfold⟩ := exceptBind_ok hfold
    rw [List.mapM_cons] at hmap
    obtain ⟨e1, he1, hmap⟩ := exceptBind_ok hmap
    obtain ⟨es1, hes1, hmap⟩ := exceptBind_ok hmap
    rw [epure_eq] at hmap
    injection hmap with hmap
    subst hmap
    obtain ⟨e1', he1', hdic, hboot, hnorm⟩ := procBoard_proj isBoot st b st1 hst1
    rw [he1] at he1'
    injection he1' with he1'
    subst he1'
    obtain ⟨ihdic, ihboot, ihnorm⟩ := ih st1 st' es1 hfold hes1
    refine ⟨?_, ?_, ?_⟩
    · rw [ihdic, hdic]
      rfl
    · rw [ihboot, hboot]
      cases isBoot <;> simp
    · rw [ihnorm, hnorm]
      cases isBoot <;> simp
  
/-- The `lib` loop never touches `dic_config` or the membership lists. -/
theorem foldLibs_proj :
    ∀ (ls : List JValue) (st st' : InfoState),
      ls.foldlM procLib st = .ok st' →
      st'.dic_config = st.dic_config ∧
      st'.board_boot = st.board_boot ∧
      st'.board_normal = st.board_normal := by
  intro ls
  induction ls with
  | nil =>
    intro st st' h
    rw [show ([] : List JValue).foldlM procLib st = pure st from rfl, epure_eq] at h
    injection h with h
    subst h
    exact ⟨rfl, rfl, rfl⟩
  | cons l rest ih =>
    intro st st' h
    rw [List.foldlM_cons] at h
    obtain ⟨st1, hst1, h⟩ := exceptBind_ok h
    have h1 : st1.dic_config = st.dic_config ∧ st1.board_boot = st.board_boot ∧
        st1.board_normal = st.board_normal := by
      unfold procLib at hst1
      obtain ⟨nj, _, hst1⟩ := exceptBind_ok hst1
      obtain ⟨n, _, hst1⟩ := exceptBind_ok hst1
      obtain ⟨vj, _, hst1⟩ := exceptBind_ok hst1
      obtain ⟨v, _, hst1⟩ := exceptBind_ok hst1
      rw [epure_eq] at hst1
      injection hst1 with hst1
      subst hst1
      exact ⟨rfl, rfl, rfl⟩
    obtain ⟨ih1, ih2, ih3⟩ := ih st1 st' h
    exact ⟨ih1.trans h1.1, ih2.trans h1.2.1, ih3.trans h1.2.2⟩

/-! ### C6 — the catalog's board-id → config mapping -/

/-- C6: after a successful catalog load, `dic_config` holds exactly one
entry per distinct `(vendorId, productId)` pair occurring in the `boot`
and `normal` lists, the first-registered config filename winning on
duplicates (`boot` entries are processed first), while the `boot` and
`normal` memberships are kept as separate full lists even when a pair
occurs in both. -/
theorem c6_catalog_board_mapping :
    ∀ (inf : JValue) (st : InfoState) (eb en : List ((Int × Int) × String)),
      loadData inf = .ok st →
      bootEntries inf = .ok eb →
      normalEntries inf = .ok en →
      ((st.dic_config.map Prod.fst).Nodup) ∧
      (∀ k, assocFind st.dic_config k =
        assocFind ((eb ++ en).map keyedEntry) k) ∧
      st.board_boot = eb.map Prod.fst ∧
      st.board_normal = en.map Prod.fst := by
  intro inf st eb en h hb hn
  unfold loadData at h
  obtain ⟨fpj, hfpj, h⟩ := exceptBind_ok h
  obtain ⟨fparam, hfp, h⟩ := exceptBind_ok h
  obtain ⟨bootJ, hbootJ, h⟩ := exceptBind_ok h
  obtain ⟨bootArr, hbootA, h⟩ := exceptBind_ok h
  obtain ⟨st1, hfold1, h⟩ := exceptBind_ok h
  obtain ⟨normJ, hnormJ, h⟩ := exceptBind_ok h
  obtain ⟨normArr, hnormA, h⟩ := exceptBind_ok h
  obtain ⟨st2, hfold2, h⟩ := exceptBind_ok h
  obtain ⟨libJ, hlibJ, h⟩ := exceptBind_ok h
  obtain ⟨libArr, hlibA, h⟩ := exceptBind_ok h
  unfold bootEntries at hb
  rw [hbootJ] at hb
  rw [ebind_ok] at hb
  rw [hbootA] at hb
  rw [ebind_ok] at hb
  unfold normalEntries at hn
  rw [hnormJ] at hn
  rw [ebind_ok] at hn
  rw [hnormA] at hn
  rw [ebind_ok] at hn
  obtain ⟨hdic1, hboot1, hnorm1⟩ :=
    foldBoards_proj true bootArr ⟨[], [], [], [], []⟩ st1 eb hfold1 hb
  obtain ⟨hdic2, hboot2, hnorm2⟩ :=
    foldBoards_proj false normArr
      { st1 with cmd_param := assocSet st1.cmd_param "default" (pyReplace fparam "'" "\"") }
      st2 en hfold2 hn
  obtain ⟨hd3, hb3, hn3⟩ := foldLibs_proj libArr st2 st h
  have hdic1' : st1.dic_config =
      (eb.map keyedEntry).foldl (fun d e => setdefault d e.1 e.2) [] := hdic1
  have hdic2' : st2.dic_config =
      (en.map keyedEntry).foldl (fun d e => setdefault d e.1 e.2) st1.dic_config := hdic2
  have hboot1' : st1.board_boot = [] ++ eb.map Prod.fst := hboot1
  have hboot2' : st2.board_boot = st1.board_boot := hboot2
  have hnorm1' : st1.board_normal = ([] : List (Int × Int)) := hnorm1
  have hnorm2' : st2.board_normal = st1.board_normal ++ en.map Prod.fst := hnorm2
  have hdic : st.dic_config =
      ((eb ++ en).map keyedEntry).foldl (fun d e => setdefault d e.1 e.2) [] := by
    rw [hd3, hdic2', hdic1', List.map_append, List.foldl_append]
  refine ⟨?_, ?_, ?_, ?_⟩
  · rw [hdic]
    exact nodup_foldl_setdefault ((eb ++ en).map keyedEntry) [] (by simp)
  · intro k
    rw [hdic, assocFind_foldl_setdefault]
    rfl
  · rw [hb3, hboot2', hboot1']
    simp
  · rw [hn3, hnorm2', hnorm1']
    simp

/-- C6 witness: a catalog whose `normal` list repeats the `boot` pair
`(0x2886, 0x18)` with a different type: the boot config name wins, both
membership lists keep the pair. -/
theorem c6_catalog_board_mapping_witness :
    ((InfoState.mk [] [("default", "-p %s %s")] [((10374 : Int), (24 : Int))]
        [((10374 : Int), (24 : Int)), ((1 : Int), (2 : Int))]
        [("(10374, 24)", "config-wio.json"), ("(1, 2)", "config-x2.json")]).dic_config.map
          Prod.fst).Nodup ∧
    (∀ k, assocFind (InfoState.mk [] [("default", "-p %s %s")] [((10374 : Int), (24 : Int))]
        [((10374 : Int), (24 : Int)), ((1 : Int), (2 : Int))]
        [("(10374, 24)", "config-wio.json"), ("(1, 2)", "config-x2.json")]).dic_config k =
      assocFind (([((((10374 : Int), (24 : Int)) : Int × Int), "config-wio.json")] ++
        [((((10374 : Int), (24 : Int)) : Int × Int), "config-other.json"),
         ((((1 : Int), (2 : Int)) : Int × Int), "config-x2.json")]).map keyedEntry) k) ∧
    (InfoState.mk [] [("default", "-p %s %s")] [((10374 : Int), (24 : Int))]
        [((10374 : Int), (24 : Int)), ((1 : Int), (2 : Int))]
        [("(10374, 24)", "config-wio.json"), ("(1, 2)", "config-x2.json")]).board_boot =
      [((((10374 : Int), (24 : Int)) : Int × Int), "config-wio.json")].map Prod.fst ∧
    (InfoState.mk [] [("default", "-p %s %s")] [((10374 : Int), (24 : Int))]
        [((10374 : Int), (24 : Int)), ((1 : Int), (2 : Int))]
        [("(10374, 24)", "config-wio.json"), ("(1, 2)", "config-x2.json")]).board_normal =
      [((((10374 : Int), (24 : Int)) : Int × Int), "config-other.json"),
       ((((1 : Int), (2 : Int)) : Int × Int), "config-x2.json")].map Prod.fst :=
  c6_catalog_board_mapping
    (.jobj [("flashParam", .jstr "-p %s %s"),
      ("boot", .jarr [.jobj [("type", .jstr "wio"),
        ("pvid", .jarr [.jstr "0x2886", .jstr "0x18"])]]),
      ("normal", .jarr [.jobj [("type", .jstr "other"),
        ("pvid", .jarr [.jstr "0x2886", .jstr "0x18"])],
        .jobj [("type", .jstr "x2"),
        ("pvid", .jarr [.jstr "0x1", .jstr "0x2"])]]),
      ("lib", .jarr [])])
    (InfoState.mk [] [("default", "-p %s %s")] [((10374 : Int), (24 : Int))]
      [((10374 : Int), (24 : Int)), ((1 : Int), (2 : Int))]
      [("(10374, 24)", "config-wio.json"), ("(1, 2)", "config-x2.json")])
    [((((10374 : Int), (24 : Int)) : Int × Int), "config-wio.json")]
    [((((10374 : Int), (24 : Int)) : Int × Int), "config-other.json"),
     ((((1 : Int), (2 : Int)) : Int × Int), "config-x2.json")]
    rfl rfl rfl

/-! ### C10 — `short_device_name` and the detection handler's prefix strip -/

/-- `rindexAux` finds nothing exactly when the character is absent. -/
theorem rindexAux_eq_none {c : Char} : ∀ {cs : List Char},
    rindexAux c cs = none ↔ c ∉ cs := by
  intro cs
  induction cs with
  | nil => simp [rindexAux]
  | cons a rest ih =>
    unfold rindexAux
    cases h : rindexAux c rest with
    | some i =>
      have hc : c ∈ rest := by
        by_contra hmem
        exact Option.noConfusion (h.symm.trans (ih.mpr hmem))
      constructor
      · intro hx; exact absurd hx (by simp)
      · intro hx; exact absurd (List.mem_cons_of_mem a hc) hx
    | none =>
      by_cases hac : a = c
      · subst hac
        simp
      · rw [if_neg hac]
        constructor
        · intro _ hmem
          rcases List.mem_cons.mp hmem with h1 | h1
          · exact hac h1.symm
          · exact (ih.mp h) h1
        · intro _; rfl

/-- A successful `rindexAux` splits the list at the LAST occurrence. -/
theorem rindexAux_some {c : Char} : ∀ {cs : List Char} {i : Nat},
    rindexAux c cs = some i →
    ∃ pre suf, cs = pre ++ c :: suf ∧ c ∉ suf ∧ pre.length = i := by
  intro cs
  induction cs with
  | nil => intro i h; exact Option.noConfusion h
  | cons a rest ih =>
    intro i h
    unfold rindexAux at h
    cases h1 : rindexAux c rest with
    | some j =>
      rw [h1] at h
      have h' : some (j + 1) = some i := h
      obtain ⟨pre, suf, hdec, hmem, hlen⟩ := ih h1
      refine ⟨a :: pre, suf, ?_, hmem, ?_⟩
      · rw [hdec]; rfl
      · have hji : j + 1 = i := Option.some.inj h'
        simp [hlen, hji]
    | none =>
      rw [h1] at h
      by_cases hac : a = c
      · rw [if_pos hac] at h
        have h' : some 0 = some i := h
        have hi : (0 : Nat) = i := Option.some.inj h'
        refine ⟨[], rest, ?_, rindexAux_eq_none.mp h1, ?_⟩
        · rw [hac]; rfl
        · rw [← hi]; rfl
      · rw [if_neg hac] at h
        exact Option.noConfusion h

/-- Conversely, the last occurrence is what `rindexAux` reports. -/
theorem rindexAux_last {c : Char} : ∀ (pre suf : List Char), c ∉ suf →
    rindexAux c (pre ++ c :: suf) = some pre.length := by
  intro pre
  induction pre with
  | nil =>
    intro suf hs
    simp [rindexAux, rindexAux_eq_none.mpr hs]
  | cons a pre' ih =>
    intro suf hs
    simp [rindexAux, ih suf hs]

/-- `short_device_name` on POSIX raises `ValueError` on a slash-free name. -/
theorem sdn_no_slash (s : String) (h : '/' ∉ s.data) :
    short_device_name true s = .error "ValueError: substring not found" := by
  have h1 : rindexAux '/' s.data = none := rindexAux_eq_none.mpr h
  show (do
    let i ← pyRindexChar s.data '/'
    pure (String.mk (pySliceFrom s.data ((i : Int) + 1)))) =
      Except.error "ValueError: substring not found"
  unfold pyRindexChar
  rw [h1]
  rfl

/-- `short_device_name` on POSIX keeps exactly the suffix after the last
slash. -/
theorem sdn_after_last_slash (s : String) (pre suf : List Char)
    (hdec : s.data = pre ++ '/' :: suf) (hs : '/' ∉ suf) :
    short_device_name true s = .ok (String.mk suf) := by
  have h1 : rindexAux '/' s.data = some pre.length := by
    rw [hdec]; exact rindexAux_last pre suf hs
  have h2 : pySliceFrom s.data ((pre.length : Int) + 1) = suf := by
    rw [hdec, List.append_cons]
    unfold pySliceFrom pySliceIdx
    rw [if_neg (by omega)]
    have h3 : ((pre.length : Int) + 1).toNat = pre.length + 1 := by omega
    have h4 : (pre ++ ['/'] ++ suf).length = pre.length + 1 + suf.length := by
      simp
      omega
    rw [h3, h4, min_eq_left (Nat.le_add_right _ _)]
    have h5 : pre.length + 1 = (pre ++ ['/']).length := by simp
    rw [h5]
    exact List.drop_left _ _
  show (do
    let i ← pyRindexChar s.data '/'
    pure (String.mk (pySliceFrom s.data ((i : Int) + 1)))) =
      Except.ok (String.mk suf)
  unfold pyRindexChar
  rw [h1]
  show Except.ok (String.mk (pySliceFrom s.data ((pre.length : Int) + 1))) =
    Except.ok (String.mk suf)
  rw [h2]

/-- The detection handler turns `"/dev/x"` into `"x"`. -/
theorem detectStrip_dev (rest : String) :
    detectStripDevName ("/dev/" ++ rest) = rest := by
  have h5 : ("/dev/" : String).data.length = 5 := rfl
  unfold detectStripDevName
  rw [String.data_append, List.take_left' h5, if_pos rfl, List.drop_left' h5]

/-- `bossac` with a resolvable flash-parameter entry reduces to formatting
that entry with the short device name. -/
theorem bossac_cmd_sel (toolPath : String) (cmd_param : List (String × String))
    (board_id : Option String) (board_name local_firmware : String) (c : String)
    (h : board_id.bind (assocFind cmd_param) = some c ∨
      (board_id.bind (assocFind cmd_param) = none ∧
        assocFind cmd_param "default" = some c)) :
    bossac true toolPath cmd_param board_id board_name local_firmware =
      (do
        let sdn ← short_device_name true board_name
        let cmd ← pyFormat2 c sdn local_firmware
        pure ("\"" ++ toolPath ++ "bossac\" " ++ cmd)) := by
  unfold bossac
  rcases h with h | ⟨h1, h2⟩
  · rw [h]
    rfl
  · rw [h1, h2]
    rfl

/-- C10: on POSIX, `short_device_name` raises an uncaught `ValueError`
exactly when the board name contains no `/`, and otherwise returns the
substring after the LAST `/`; since the detection handler strips the
leading `"/dev/"` before storing the board name, `bossac` for a detected
POSIX board whose remaining name is slash-free (any `/dev/xxx` port)
reaches exactly this `ValueError`, whatever flash-parameter entry
resolves. -/
theorem c10_short_device_name_valueerror :
    (∀ s : String, '/' ∉ s.data →
      short_device_name true s = .error "ValueError: substring not found") ∧
    (∀ (s : String) (pre suf : List Char),
      s.data = pre ++ '/' :: suf → '/' ∉ suf →
      short_device_name true s = .ok (String.mk suf)) ∧
    (∀ rest : String, '/' ∉ rest.data →
      ∀ (toolPath local_firmware : String)
        (cmd_param : List (String × String)) (board_id : Option String),
        ((board_id.bind (assocFind cmd_param)).isSome = true ∨
          (assocFind cmd_param "default").isSome = true) →
        bossac true toolPath cmd_param board_id
          (detectStripDevName ("/dev/" ++ rest)) local_firmware =
          .error "ValueError: substring not found") := by
  refine ⟨sdn_no_slash, sdn_after_last_slash, ?_⟩
  intro rest hrest toolPath fw cmd_param board_id hcmd
  rw [detectStrip_dev]
  have hsdn := sdn_no_slash rest hrest
  cases hbc : board_id.bind (assocFind cmd_param) with
  | some c =>
    rw [bossac_cmd_sel toolPath cmd_param board_id rest fw c (Or.inl hbc)]
    rw [hsdn, ebind_err]
  | none =>
    rcases hcmd with hc | hc
    · rw [hbc] at hc
      exact absurd hc (by simp)
    · obtain ⟨c, hc2⟩ := Option.isSome_iff_exists.mp hc
      rw [bossac_cmd_sel toolPath cmd_param board_id rest fw c (Or.inr ⟨hbc, hc2⟩)]
      rw [hsdn, ebind_err]

/-- C10 witness: the detected board `/dev/ttyACM0` is stored as
`ttyACM0`, whose slash-free name makes `short_device_name` raise the
`ValueError` that `bossac` then surfaces; on the full path the last slash
is correctly used. -/
theorem c10_short_device_name_valueerror_witness :
    short_device_name true "ttyACM0" = .error "ValueError: substring not found" ∧
    short_device_name true "/dev/ttyACM0" =
      .ok (String.mk ['t', 't', 'y', 'A', 'C', 'M', '0']) ∧
    bossac true "tools/" [("default", "-p %s %s")] none
      (detectStripDevName ("/dev/" ++ "ttyACM0")) "fw.bin" =
      .error "ValueError: substring not found" :=
  ⟨c10_short_device_name_valueerror.1 "ttyACM0" (by decide),
   c10_short_device_name_valueerror.2.1 "/dev/ttyACM0"
     ['/', 'd', 'e', 'v'] ['t', 't', 'y', 'A', 'C', 'M', '0']
     (by decide) (by decide),
   c10_short_device_name_valueerror.2.2 "ttyACM0" (by decide) "tools/" "fw.bin"
     [("default", "-p %s %s")] none (Or.inr (by decide))⟩
